import Mathlib

/-!
# Verification development for the LinkedIn automation proof of concept

A shallow embedding of the Go sources under `internal/` and theorems about it.

Conventions of the embedding

* `time.Time` and `time.Duration` are integers (nanoseconds); `int64`
  arithmetic that can overflow goes through `wrapInt64`.
* Everything the program learns from the outside (the browser, the SQL driver,
  the clock, the random source, the cancellation signal) is read from an
  explicit environment value, so every function below is a pure, total,
  computable function of its inputs and of that environment.
* A Go `error` is an `Option Error` / `Except Error _`; a runtime panic is an
  explicit outcome.
-/

namespace LinkedinAutomation

/-- A Go `error` value, identified by its message. -/
abbrev Error := String

/-- What the environment answers to one fallible call: `none` when the call
goes through, `some e` when it returns the error `e` without effect. -/
abbrev Fault := Option Error

/-! ## `internal/storage/sqlite.go` -/

/-- One row of table `sent_requests` (`profile_url TEXT NOT NULL UNIQUE`,
`sent_at TIMESTAMP NOT NULL`); the autoincrement `id` is never read. -/
structure SentRequest where
  profile_url : String
  sent_at : Int
deriving DecidableEq, Repr

/-- One row of table `messages`. -/
structure Message where
  profile_url : String
  message_type : String
  sent_at : Int
deriving DecidableEq, Repr

/-- The database behind `Storage`: its two tables, rows in insertion order. -/
structure Storage where
  sent_requests : List SentRequest
  messages : List Message
deriving DecidableEq, Repr

/-- The database right after `initSchema` on a fresh file. -/
def Storage.initSchema : Storage := ⟨[], []⟩

/-- `SELECT 1 FROM sent_requests WHERE profile_url = ?`: a row is scanned
(`true`), or `sql.ErrNoRows` (`false`), or the driver fails. -/
def Storage.HasSentRequest (s : Storage) (fault : Fault) (profileURL : String) :
    Except Error Bool :=
  match fault with
  | some e => .error e
  | none => .ok (s.sent_requests.any (fun r => r.profile_url == profileURL))

/-- `INSERT OR IGNORE INTO sent_requests (profile_url, sent_at) VALUES (?, ?)`:
the row is appended unless the `UNIQUE` constraint on `profile_url` would be
violated, in which case the statement is ignored; a driver failure inserts
nothing. -/
def Storage.RecordRequest (s : Storage) (fault : Fault) (profileURL : String)
    (when : Int) : Except Error Storage :=
  match fault with
  | some e => .error e
  | none =>
    if s.sent_requests.any (fun r => r.profile_url == profileURL) then .ok s
    else .ok { s with sent_requests := s.sent_requests ++ [⟨profileURL, when⟩] }

/-- `SELECT COUNT(*) FROM sent_requests WHERE sent_at >= ?`. -/
def Storage.CountRequestsSince (s : Storage) (fault : Fault) (since : Int) :
    Except Error Int :=
  match fault with
  | some e => .error e
  | none => .ok (s.sent_requests.filter (fun r => decide (since ≤ r.sent_at))).length

/-! ## `internal/stealth/timing.go` -/

/-- Two's complement wrap-around of `int64` arithmetic. -/
def wrapInt64 (x : Int) : Int := (x + 2 ^ 63) % 2 ^ 64 - 2 ^ 63

/-- What one call of a stealth primitive did to the random source and the
clock. -/
inductive TimingEffect where
  | int63n (n : Int)
  | sleep (d : Int)
deriving DecidableEq, Repr

/-- Outcome of `RandomDelay`: the effects performed, and whether the call
ended in a runtime panic (`rand.Int63n` panics when its argument is `<= 0`). -/
structure DelayOutcome where
  effects : List TimingEffect
  panicked : Bool
deriving DecidableEq, Repr

/-- `RandomDelay(min, max)`; `int63n n` is what `rand.Int63n(n)` returns. -/
def RandomDelay (int63n : Int → Int) (min max : Int) : DelayOutcome :=
  if max ≤ 0 ∨ max < min then
    ⟨[.sleep min], false⟩
  else
    let delta := wrapInt64 (max - min)
    if delta ≤ 0 then
      ⟨[.int63n delta], true⟩
    else
      let sleep := wrapInt64 (min + int63n delta)
      ⟨[.int63n delta, .sleep sleep], false⟩

/-! ## `internal/connect/connect.go` -/

/-- The fields of `config.ConnectConfig`. -/
structure ConnectConfig where
  DailyLimit : Int
  NoteTemplate : String
  ActionDelayMin : Int
  ActionDelayMax : Int

/-- Which branch the navigation `select` takes: `navDone` delivered `nil`,
`navDone` delivered an error, or `navCtx.Done()` fired first (the 30 s
deadline or the cancellation of the parent context). -/
inductive NavOutcome where
  | loaded
  | failed
  | ctxDone
deriving DecidableEq, Repr

/-- Everything the environment decides during one iteration of the loop of
`SendConnectionRequests`. -/
structure ConnectStep where
  /-- `ctx.Done()` is readable at the top of the iteration. -/
  canceled : Bool
  hasFault : Fault
  nav : NavOutcome
  /-- `page.ElementR("button", "Connect")` gave a button and no error. -/
  connectFound : Bool
  /-- `btn.Click` returned no error. -/
  connectClicked : Bool
  addNoteFound : Bool
  /-- Outcome of `addNote.Click`, which the code discards (`_ =`). -/
  addNoteClicked : Bool
  noteAreaFound : Bool
  /-- Outcome of `noteArea.Input(note)`, which the code only logs. -/
  noteInputFault : Fault
  sendFound : Bool
  /-- Outcome of `sendBtn.Click`, which the code discards (`_ =`). -/
  sendClicked : Bool
  recordFault : Fault
  /-- `time.Now()` passed to `RecordRequest`. -/
  now : Int
  int63n : Int → Int

/-- The environment of one run of `SendConnectionRequests`. -/
structure ConnectWorld where
  pageFault : Fault
  /-- `time.Now()` before the count query. -/
  now : Int
  countFault : Fault
  step : Nat → ConnectStep

/-- The externally visible actions of the workflow. The text typed into the
note (`renderTemplate` of `cfg.NoteTemplate`) is not tracked. -/
inductive ConnectAction where
  | lookup
  | navigate
  | findConnect
  | clickConnect
  | clickAddNote
  | inputNote
  | clickSend
  | record (when : Int)
  | delay (d : Int)
deriving DecidableEq, Repr

/-- An action, with the position (0-based) and the value of the loop variable
`profileURL` it was performed for. -/
structure ConnectEvent where
  idx : Nat
  profile : String
  action : ConnectAction
deriving DecidableEq, Repr

/-- The variables of `SendConnectionRequests` that outlive an iteration. -/
structure ConnectState where
  store : Storage
  sentToday : Int
  trace : List ConnectEvent
deriving DecidableEq, Repr

/-- How a run ends. -/
inductive Exit where
  | returned (err : Option Error)
  | panicked
deriving DecidableEq, Repr

structure ConnectResult where
  state : ConnectState
  exit : Exit
deriving DecidableEq, Repr

/-- How one iteration of a loop ends: `continue` / falling off the end of the
body, or leaving the function. -/
inductive Flow where
  | next (s : ConnectState)
  | leave (r : ConnectResult)
deriving DecidableEq, Repr

def ConnectState.emit (s : ConnectState) (i : Nat) (profileURL : String)
    (a : ConnectAction) : ConnectState :=
  { s with trace := s.trace ++ [⟨i, profileURL, a⟩] }

/-- Log the `time.Sleep` calls among the effects of a `RandomDelay`. -/
def ConnectState.emitSleeps (s : ConnectState) (i : Nat) (profileURL : String) :
    List TimingEffect → ConnectState
  | [] => s
  | .sleep t :: effs => (s.emit i profileURL (.delay t)).emitSleeps i profileURL effs
  | .int63n _ :: effs => s.emitSleeps i profileURL effs

/-- `24 * time.Hour` in nanoseconds. -/
def day : Int := 24 * 3600 * 1000000000

/-- `t.Truncate(24 * time.Hour)`: `t` rounded down to a multiple of 24 h. -/
def truncateDay (t : Int) : Int := t - t % day

/-- The optional note dialog and the Send button (connect.go lines 102-119):
every error on this stretch is discarded by the code. -/
def sendDialog (e : ConnectStep) (i : Nat) (profileURL : String) (s : ConnectState) :
    ConnectState :=
  let s :=
    if e.addNoteFound then
      let s := s.emit i profileURL .clickAddNote
      if e.noteAreaFound then s.emit i profileURL .inputNote else s
    else s
  if e.sendFound then s.emit i profileURL .clickSend else s

/-- Recording the request and counting it (connect.go lines 121-126). -/
def recordSent (e : ConnectStep) (i : Nat) (profileURL : String) (s : ConnectState) :
    ConnectState :=
  let s := s.emit i profileURL (.record e.now)
  match s.store.RecordRequest e.recordFault profileURL e.now with
  | .error _ => s
  | .ok store => { s with store := store, sentToday := s.sentToday + 1 }

/-- The think time at the end of the body (connect.go line 129). -/
def thinkTime (cfg : ConnectConfig) (e : ConnectStep) (i : Nat) (profileURL : String)
    (s : ConnectState) : Flow :=
  let d := RandomDelay e.int63n cfg.ActionDelayMin cfg.ActionDelayMax
  let s := s.emitSleeps i profileURL d.effects
  if d.panicked then .leave ⟨s, .panicked⟩ else .next s

/-- The part of the loop body after the dedup check (connect.go lines 63-129). -/
def connectAction (cfg : ConnectConfig) (e : ConnectStep) (i : Nat)
    (profileURL : String) (s : ConnectState) : Flow :=
  let s := s.emit i profileURL .navigate
  match e.nav with
  | .failed => .next s
  | .ctxDone => .next s
  | .loaded =>
    let s := s.emit i profileURL .findConnect
    if !e.connectFound then .next s
    else
      let s := s.emit i profileURL .clickConnect
      if !e.connectClicked then .next s
      else
        thinkTime cfg e i profileURL
          (recordSent e i profileURL (sendDialog e i profileURL s))

/-- One iteration of the loop over `profiles` (connect.go lines 40-130). -/
def connectIteration (cfg : ConnectConfig) (e : ConnectStep) (i : Nat)
    (profileURL : String) (s : ConnectState) : Flow :=
  if e.canceled then .leave ⟨s, .returned none⟩
  else if s.sentToday ≥ cfg.DailyLimit then .leave ⟨s, .returned none⟩
  else
    let s1 := s.emit i profileURL .lookup
    match s.store.HasSentRequest e.hasFault profileURL with
    | .error _ => .next s1
    | .ok true => .next s1
    | .ok false => connectAction cfg e i profileURL s1

/-- The loop `for _, profileURL := range profiles`, from position `i`. -/
def connectLoop (cfg : ConnectConfig) (step : Nat → ConnectStep) :
    Nat → List String → ConnectState → ConnectResult
  | _, [], s => ⟨s, .returned none⟩
  | i, profileURL :: rest, s =>
    match connectIteration cfg (step i) i profileURL s with
    | .leave r => r
    | .next s => connectLoop cfg step (i + 1) rest s

/-- `SendConnectionRequests(ctx, br, store, cfg, profiles, log)`. -/
def SendConnectionRequests (w : ConnectWorld) (store : Storage) (cfg : ConnectConfig)
    (profiles : List String) : ConnectResult :=
  match w.pageFault with
  | some e => ⟨⟨store, 0, []⟩, .returned (some ("open page: " ++ e))⟩
  | none =>
    let today := truncateDay w.now
    match store.CountRequestsSince w.countFault today with
    | .error e => ⟨⟨store, 0, []⟩, .returned (some e)⟩
    | .ok sentToday => connectLoop cfg w.step 0 profiles ⟨store, sentToday, []⟩

/-! ## `internal/stealth/typing.go` -/

/-- What `TypeLikeHuman` does to the page and the clock: the script of
`appendChar(page, r)`, the script of `backspaceJS(page)`, a `time.Sleep`. -/
inductive TypeEvent where
  | append (r : Char)
  | backspace
  | sleep (d : Int)
deriving DecidableEq, Repr

/-- The random draws of one iteration of the loop of `TypeLikeHuman`:
`rand.Float64()` (a `float64`, modelled by the rational it denotes) and the
value of `rand.Intn(140)` in each `randomKeystrokeDelay()`. -/
structure KeyDraws where
  float64 : ℚ
  typoDelay : Int
  backspaceDelay : Int
  charDelay : Int

/-- What `page.Eval` answers to each script of one iteration. -/
structure KeyFaults where
  typo : Fault
  backspace : Fault
  char : Fault

/-- A page on which every `page.Eval` succeeds. -/
def workingPage : Nat → KeyFaults := fun _ => ⟨none, none, none⟩

/-- `time.Millisecond` in nanoseconds. -/
def millisecond : Int := 1000000

/-- `randomKeystrokeDelay()`, given the value of `rand.Intn(140)`. -/
def randomKeystrokeDelay (intn : Int) : Int := (80 + intn) * millisecond

/-- `randomNearbyRune(r)`. -/
def randomNearbyRune (r : Char) : Char :=
  if r = 'a' then 's'
  else if r = 's' then 'a'
  else if r = 'e' then 'r'
  else if r = 'r' then 'e'
  else if r = 'n' then 'm'
  else if r = 'm' then 'n'
  else r

/-- Outcome of `TypeLikeHuman`: the events in order (a script whose evaluation
failed is the last event) and the returned error. -/
structure TypeResult where
  trace : List TypeEvent
  err : Option Error
deriving DecidableEq, Repr

/-- The typo branch of the loop body (typing.go lines 18-31); `some e` when the
function returns `e` from inside the branch. -/
def typeSlip (d : KeyDraws) (f : KeyFaults) (r : Char) (tr : List TypeEvent) :
    List TypeEvent × Option Error :=
  if d.float64 < 0.03 then
    let wrong := randomNearbyRune r
    let tr := tr ++ [.append wrong]
    match f.typo with
    | some e => (tr, some e)
    | none =>
      let tr := tr ++ [.sleep (randomKeystrokeDelay d.typoDelay), .backspace]
      match f.backspace with
      | some e => (tr, some e)
      | none => (tr ++ [.sleep (randomKeystrokeDelay d.backspaceDelay)], none)
  else (tr, none)

/-- The loop `for _, r := range text`, from rune number `j`. -/
def typeLoop (draws : Nat → KeyDraws) (page : Nat → KeyFaults) :
    Nat → List Char → List TypeEvent → TypeResult
  | _, [], tr => ⟨tr, none⟩
  | j, r :: rest, tr =>
    match typeSlip (draws j) (page j) r tr with
    | (tr, some e) => ⟨tr, some e⟩
    | (tr, none) =>
      let tr := tr ++ [.append r]
      match (page j).char with
      | some e => ⟨tr, some e⟩
      | none =>
        typeLoop draws page (j + 1) rest
          (tr ++ [.sleep (randomKeystrokeDelay (draws j).charDelay)])

/-- `TypeLikeHuman(page, text)`. -/
def TypeLikeHuman (draws : Nat → KeyDraws) (page : Nat → KeyFaults) (text : String) :
    TypeResult :=
  typeLoop draws page 0 text.data []

/-- The characters of the append operations of a trace, in order. -/
def appends : List TypeEvent → List Char
  | [] => []
  | .append r :: evs => r :: appends evs
  | _ :: evs => appends evs

/-- The number of delete operations of a trace. -/
def deletes : List TypeEvent → Nat
  | [] => 0
  | .backspace :: evs => deletes evs + 1
  | _ :: evs => deletes evs

/-! ## `internal/stealth/mouse.go` -/

/-- The part of package `math` that the stealth primitives use. A `float64` is
modelled by the rational number it denotes and rounding is not modelled;
`sin_zero` is the special case `Sin(±0) = ±0` of the library. -/
structure GoMath where
  Sin : ℚ → ℚ
  Pi : ℚ
  sin_zero : Sin 0 = 0

/-- The random draws of one call of `MoveMouseHumanly`: the value of the n-th
call of `rand.Float64()` and of the n-th call of `rand.Intn`, counted from 0. -/
structure MouseDraws where
  Float64 : Nat → ℚ
  Intn : Nat → Int

/-- Conversion of a `float64` to `int64` (here `time.Duration(x)`): the
fraction is discarded, truncation towards zero. -/
def float64ToInt64 (x : ℚ) : Int := Int.tdiv x.num x.den

/-- `bezierPath(x0, y0, x3, y3, steps)`; `float64 n` is its n-th draw. -/
def bezierPath (float64 : Nat → ℚ) (x0 y0 x3 y3 : ℚ) (steps : Nat) : List (ℚ × ℚ) :=
  let cp1x := x0 + (x3 - x0) / 3 + (float64 0 - 0.5) * 60
  let cp1y := y0 + (y3 - y0) / 3 + (float64 1 - 0.5) * 60
  let cp2x := x0 + 2 * (x3 - x0) / 3 + (float64 2 - 0.5) * 60
  let cp2y := y0 + 2 * (y3 - y0) / 3 + (float64 3 - 0.5) * 60
  (List.range (steps + 1)).map fun i =>
    let t := (i : ℚ) / (steps : ℚ)
    let mt := 1 - t
    (mt * mt * mt * x0 + 3 * mt * mt * t * cp1x + 3 * mt * t * t * cp2x + t * t * t * x3,
     mt * mt * mt * y0 + 3 * mt * mt * t * cp1y + 3 * mt * t * t * cp2y + t * t * t * y3)

/-- What a call of `MoveMouseHumanly` did: the coordinates of the mouse-moved
events it dispatched, the durations it slept, and whether it ended in a
runtime panic (integer division by zero). -/
structure MouseRun where
  events : List (ℚ × ℚ)
  sleeps : List Int
  panicked : Bool

/-- The loop `for i, p := range path` (mouse.go lines 28-46); `len` is
`len(path)`. -/
def mouseLoop (m : GoMath) (rnd : MouseDraws) (len : Nat) :
    Nat → List (ℚ × ℚ) → MouseRun → MouseRun
  | _, [], run => run
  | i, p :: rest, run =>
    let progress := (i : ℚ) / (len : ℚ)
    let speedFactor := 0.5 + 1.5 * m.Sin (progress * m.Pi)
    let p0 := p.1 + (rnd.Float64 (8 + 2 * i) - 0.5) * 1.5
    let p1 := p.2 + (rnd.Float64 (9 + 2 * i) - 0.5) * 1.5
    let run := { run with events := run.events ++ [(p0, p1)] }
    let divisor := float64ToInt64 speedFactor
    if divisor = 0 then { run with panicked := true }
    else
      mouseLoop m rnd len (i + 1) rest
        { run with sleeps := run.sleeps ++ [Int.tdiv ((4 + rnd.Intn i) * millisecond) divisor] }

/-- `MoveMouseHumanly(page, targetX, targetY)`. -/
def MoveMouseHumanly (m : GoMath) (rnd : MouseDraws) (targetX targetY : ℚ) : MouseRun :=
  let startX := 10.0 + rnd.Float64 0 * 20
  let startY := 10.0 + rnd.Float64 1 * 20
  let overshootX := targetX + (rnd.Float64 2 - 0.5) * 20
  let overshootY := targetY + (rnd.Float64 3 - 0.5) * 20
  let path := bezierPath (fun n => rnd.Float64 (4 + n)) startX startY overshootX overshootY 80
  let run := mouseLoop m rnd path.length 0 path ⟨[], [], false⟩
  if run.panicked then run
  else
    { events := run.events ++ [(targetX, targetY)]
      sleeps := run.sleeps ++ [(20 + rnd.Intn path.length) * millisecond]
      panicked := false }

/-- A stand-in for package `math`: the Taylor polynomial of degree 5 for the
sine and 355/113 for pi. -/
def demoMath : GoMath where
  Sin := fun x => x - x ^ 3 / 6 + x ^ 5 / 120
  Pi := 355 / 113
  sin_zero := by norm_num

/-- Every `rand.Float64()` is 0.5 and every `rand.Intn` is 0. -/
def demoDraws : MouseDraws where
  Float64 := fun _ => 1 / 2
  Intn := fun _ => 0

/-! ## `internal/search/search.go` -/

/-- `strings.Contains(s, substr)`. -/
def stringsContains (s substr : String) : Bool :=
  s.data.tails.any (fun t => substr.data.isPrefixOf t)

/-- `strings.Index(s, "?")`-style search for one ASCII character: the position
of its first occurrence, or `-1`. Positions count characters; for an ASCII
character the first occurrence is at a positive byte offset exactly when it is
at a positive character position, and the bytes before it are the characters
before it. -/
def stringsIndex (s : String) (c : Char) : Int :=
  if c ∈ s.data then (s.data.indexOf c : Int) else -1

/-- The body of the loop of `extractProfileURLs` for one anchor whose `href`
was read: the profile address to append, if any. -/
def profileTarget (href : String) : Option String :=
  if stringsContains href "/in/" then
    let idx := stringsIndex href '?'
    if idx > 0 then some ⟨href.data.take idx.toNat⟩ else some href
  else none

/-- `extractProfileURLs(page)`: `links` holds, for each `a` element in document
order, its `href` (`none` when `Attribute` fails or the attribute is absent). -/
def extractProfileURLs (elementsFault : Fault) (links : List (Option String)) :
    List String × Option Error :=
  match elementsFault with
  | some e => ([], some e)
  | none => ((links.filterMap id).filterMap profileTarget, none)

/-- The address with everything from its first `?` on removed. -/
def truncateAtQuery (u : String) : String := ⟨u.data.takeWhile (fun c => c != '?')⟩

/-- The fields of `config.SearchConfig`. -/
structure SearchConfig where
  Keywords : List String
  MaxPages : Int
  PageDelayMin : Int
  PageDelayMax : Int

/-- What the environment decides during one iteration of the pagination loop. -/
structure PageStep where
  /-- `ctx.Done()` is readable at the top of the iteration. -/
  canceled : Bool
  int63n : Int → Int
  elementsFault : Fault
  links : List (Option String)
  /-- `page.ElementR("button, a", "Next")` gave an element and no error. -/
  nextFound : Bool
  nextClicked : Bool
  /-- The `select` on `loadDone` / `loadCtx.Done()`. -/
  load : NavOutcome

/-- What the environment decides during one iteration of `keywordLoop`. -/
structure KeywordStep where
  /-- `ctx.Done()` is readable at the top of the iteration. -/
  canceled : Bool
  nav : NavOutcome
  /-- `page.Info()` after the navigation: the URL, `none` on error. -/
  info : Option String
  /-- `page.Info()` after the 30 s checkpoint wait. -/
  info2 : Option String
  page : Nat → PageStep

/-- The environment of one run of `SearchProfiles`. -/
structure SearchWorld where
  pageFault : Fault
  keyword : Nat → KeywordStep

/-- `unique[u] = struct{}{}` on the set `unique`, kept in order of first
insertion. -/
def insertUnique (unique : List String) (u : String) : List String :=
  if u ∈ unique then unique else unique ++ [u]

/-- How the pagination loop of one keyword ends. -/
inductive PageFlow where
  /-- The loop ran out of pages or hit `break`: on to the next keyword. -/
  | nextKeyword (unique : List String)
  /-- `break keywordLoop`. -/
  | breakKeywordLoop (unique : List String)
  /-- `RandomDelay` panicked. -/
  | panicked (unique : List String)
deriving DecidableEq, Repr

/-- The loop `for pageIdx := 0; pageIdx < cfg.MaxPages; pageIdx++`
(search.go lines 95-156), with `remaining` iterations to go. The scroll
(`ScrollHumanLike`, whose error result is always `nil`) and the fixed sleeps
do not influence the control flow and are left out. -/
def paginate (cfg : SearchConfig) (page : Nat → PageStep) :
    (remaining : Nat) → (pageIdx : Nat) → List String → PageFlow
  | 0, _, unique => .nextKeyword unique
  | remaining + 1, pageIdx, unique =>
    let e := page pageIdx
    if e.canceled then .breakKeywordLoop unique
    else if (RandomDelay e.int63n cfg.PageDelayMin cfg.PageDelayMax).panicked then
      .panicked unique
    else
      let urls := (extractProfileURLs e.elementsFault e.links).1
      let unique := urls.foldl insertUnique unique
      if !e.nextFound then .nextKeyword unique
      else if !e.nextClicked then .nextKeyword unique
      else
        match e.load with
        | .loaded => paginate cfg page remaining (pageIdx + 1) unique
        -- `break` inside `select` leaves the `select` only
        | .failed => paginate cfg page remaining (pageIdx + 1) unique
        | .ctxDone => .breakKeywordLoop unique

/-- The page shows a checkpoint: `info.URL != ""` and it contains "checkpoint"
or "challenge". -/
def isCheckpoint (info : Option String) : Bool :=
  match info with
  | none => false
  | some url =>
    url != "" && (stringsContains url "checkpoint" || stringsContains url "challenge")

/-- Outcome of `SearchProfiles`: the returned slice (up to the order of the map
iteration that builds it) and how the call ended. -/
structure SearchResult where
  profiles : List String
  exit : Exit
deriving DecidableEq, Repr

/-- The loop `keywordLoop` and the return that follows it, from keyword number
`k` with the set `unique` accumulated so far. -/
def keywordLoop (cfg : SearchConfig) (keyword : Nat → KeywordStep) :
    Nat → List String → List String → SearchResult
  | _, [], unique => ⟨unique, .returned none⟩
  | k, _ :: rest, unique =>
    let e := keyword k
    if e.canceled then ⟨[], .returned none⟩
    else
      match e.nav with
      | .failed => keywordLoop cfg keyword (k + 1) rest unique
      | .ctxDone => keywordLoop cfg keyword (k + 1) rest unique
      | .loaded =>
        if isCheckpoint e.info && isCheckpoint e.info2 then
          keywordLoop cfg keyword (k + 1) rest unique
        else
          match paginate cfg e.page cfg.MaxPages.toNat 0 unique with
          | .nextKeyword unique => keywordLoop cfg keyword (k + 1) rest unique
          | .breakKeywordLoop unique => ⟨unique, .returned none⟩
          | .panicked unique => ⟨unique, .panicked⟩

/-- `SearchProfiles(ctx, br, cfg, log)`. -/
def SearchProfiles (w : SearchWorld) (cfg : SearchConfig) : SearchResult :=
  match w.pageFault with
  | some e => ⟨[], .returned (some ("open page: " ++ e))⟩
  | none => keywordLoop cfg w.keyword 0 cfg.Keywords []

/-- A search run in which nothing goes wrong: every keyword shows one page of
results holding one profile link and no Next button. The cancellation signal
is seen at the top of the keyword loop from keyword number `cancelAt` on, and
at the top of the pagination loop from keyword number `pageCancelAt` on. -/
def demoSearch (cancelAt pageCancelAt : Nat) : SearchWorld where
  pageFault := none
  keyword := fun k =>
    { canceled := decide (cancelAt ≤ k)
      nav := .loaded
      info := some "https://www.linkedin.com/search/results/people/"
      info2 := none
      page := fun _ =>
        { canceled := decide (pageCancelAt ≤ k)
          int63n := fun _ => 0
          elementsFault := none
          links := [some "https://www.linkedin.com/in/alice?trk=1", some "/feed/"]
          nextFound := false
          nextClicked := false
          load := .loaded } }

/-- A search configuration with one page per keyword and the default delays. -/
def demoSearchConfig (keywords : List String) : SearchConfig where
  Keywords := keywords
  MaxPages := 1
  PageDelayMin := 2000000000
  PageDelayMax := 5000000000

/-- The state an iteration ends in. -/
def Flow.state : Flow → ConnectState
  | .next s => s
  | .leave r => r.state

/-- The number of rows of `sent_requests` in the 24-hour window of the start of
the run: what a working `CountRequestsSince(ctx, today)` returns. -/
def priorCount (w : ConnectWorld) (store : Storage) : Int :=
  ((store.sent_requests.filter
    (fun r => decide (truncateDay w.now ≤ r.sent_at))).length : Int)

/-- The target has a row in `sent_requests`. -/
def Storage.hasRow (s : Storage) (profileURL : String) : Bool :=
  s.sent_requests.any (fun r => r.profile_url == profileURL)

/-- In this iteration nothing outside the program goes wrong: no cancellation,
the ledger answers, the page loads, the Connect button is there and takes the
click, and the think time does not panic. -/
def StepOk (cfg : ConnectConfig) (e : ConnectStep) : Prop :=
  e.canceled = false ∧ e.hasFault = none ∧ e.nav = .loaded ∧ e.connectFound = true
    ∧ e.connectClicked = true ∧ e.recordFault = none
    ∧ (RandomDelay e.int63n cfg.ActionDelayMin cfg.ActionDelayMax).panicked = false

/-- The targets whose profile page the run navigated to, in order. -/
def ConnectState.visited (s : ConnectState) : List String :=
  (s.trace.filter (fun ev => decide (ev.action = .navigate))).map (fun ev => ev.profile)

/-- An iteration in which nothing outside the program goes wrong; the optional
controls of the dialog are as given. -/
def okStep (addNote send : Bool) (now : Int) : ConnectStep where
  canceled := false
  hasFault := none
  nav := .loaded
  connectFound := true
  connectClicked := true
  addNoteFound := addNote
  addNoteClicked := true
  noteAreaFound := true
  noteInputFault := none
  sendFound := send
  sendClicked := true
  recordFault := none
  now := now
  int63n := fun _ => 0

/-- A run in which nothing outside the program goes wrong, started at time
`now`; iteration `i` records at time `now + i + 1`; the signal is set from
iteration `cancelAt` on. -/
def okWorld (now : Int) (send : Bool) (cancelAt : Nat) : ConnectWorld where
  pageFault := none
  now := now
  countFault := none
  step := fun i => { okStep false send (now + i + 1) with canceled := decide (cancelAt ≤ i) }

/-- A run started on a context that is already cancelled: the signal is seen
from the first iteration on, and the count query, run on that context, fails
with `context.Canceled`. -/
def canceledAtStart : ConnectWorld :=
  { okWorld 0 true 0 with countFault := some "context canceled" }

/-- A configuration with the default delays (2 s to 5 s). -/
def okConfig (limit : Int) : ConnectConfig where
  DailyLimit := limit
  NoteTemplate := ""
  ActionDelayMin := 2000000000
  ActionDelayMax := 5000000000

/-- The trace of `s2` is the trace of `s1` followed by events of iteration `i`
on `profileURL` only. -/
def TraceExt (i : Nat) (profileURL : String) (s1 s2 : ConnectState) : Prop :=
  ∃ evs : List ConnectEvent, s2.trace = s1.trace ++ evs
    ∧ ∀ ev ∈ evs, ev.idx = i ∧ ev.profile = profileURL

/-- A sequence of `RecordRequest` calls against one database, each with the
outcome of the driver, its target and its timestamp; like the callers, the
sequence goes on after a call that returned an error. -/
def recordAll (s : Storage) : List (Fault × String × Int) → Storage
  | [] => s
  | (fault, profileURL, when) :: calls =>
    match s.RecordRequest fault profileURL when with
    | .ok s1 => recordAll s1 calls
    | .error _ => recordAll s calls

/-- No two rows of `sent_requests` have the same `profile_url`. -/
def Storage.UniqueTargets (s : Storage) : Prop :=
  (s.sent_requests.map (fun r => r.profile_url)).Nodup

/-! ## `internal/storage/sqlite.go`, table `messages` -/

/-- `INSERT INTO messages (profile_url, message_type, sent_at) VALUES (?, ?, ?)`:
the row is appended, whatever the table holds; a driver failure inserts
nothing. -/
def Storage.RecordMessage (s : Storage) (fault : Fault) (profileURL msgType : String)
    (when : Int) : Except Error Storage :=
  match fault with
  | some e => .error e
  | none => .ok { s with messages := s.messages ++ [⟨profileURL, msgType, when⟩] }

/-- `SELECT COUNT(*) FROM messages WHERE message_type = ? AND sent_at >= ?`. -/
def Storage.CountMessagesSince (s : Storage) (fault : Fault) (msgType : String)
    (since : Int) : Except Error Int :=
  match fault with
  | some e => .error e
  | none =>
    .ok (s.messages.filter
      (fun r => r.message_type == msgType && decide (since ≤ r.sent_at))).length

/-! ## `internal/config/config.go` -/

/-- The fields of `config.BrowserConfig`. -/
structure BrowserConfig where
  Headless : Bool
  ViewportWidth : Int
  ViewportHeight : Int
  UserAgent : String

/-- The fields of `config.DatabaseConfig`. -/
structure DatabaseConfig where
  DSN : String

/-- The fields of `config.MessagingConfig`. -/
structure MessagingConfig where
  Templates : List String
  CheckInterval : Int
  DailyLimit : Int
  ActionDelayMin : Int
  ActionDelayMax : Int

/-- The fields of `config.Config`. -/
structure Config where
  Browser : BrowserConfig
  Database : DatabaseConfig
  Search : SearchConfig
  Connect : ConnectConfig
  Messaging : MessagingConfig

/-- `validate(cfg)`: the returned error, `none` for `nil`. -/
def validate (cfg : Config) : Option Error :=
  if cfg.Search.Keywords.length = 0 then
    some "at least one search keyword must be configured"
  else if cfg.Connect.DailyLimit < 0 then
    some "connect.daily_limit cannot be negative"
  else if cfg.Messaging.DailyLimit < 0 then
    some "messaging.daily_limit cannot be negative"
  else none

/-- `time.Second` in nanoseconds. -/
def second : Int := 1000000000

/-- `if cfg.Browser.ViewportWidth == 0 { cfg.Browser.ViewportWidth = ... }` (config.go lines 82-84). -/
def defaultViewportWidth (cfg : Config) : Config :=
  if cfg.Browser.ViewportWidth = 0 then { cfg with Browser := { cfg.Browser with ViewportWidth := 1366 } } else cfg

/-- `if cfg.Browser.ViewportHeight == 0 { cfg.Browser.ViewportHeight = ... }` (lines 85-87). -/
def defaultViewportHeight (cfg : Config) : Config :=
  if cfg.Browser.ViewportHeight = 0 then { cfg with Browser := { cfg.Browser with ViewportHeight := 768 } } else cfg

/-- `if cfg.Search.MaxPages == 0 { cfg.Search.MaxPages = ... }` (lines 88-90). -/
def defaultMaxPages (cfg : Config) : Config :=
  if cfg.Search.MaxPages = 0 then { cfg with Search := { cfg.Search with MaxPages := 1 } } else cfg

/-- `if cfg.Connect.DailyLimit == 0 { cfg.Connect.DailyLimit = ... }` (lines 91-93). -/
def defaultConnectLimit (cfg : Config) : Config :=
  if cfg.Connect.DailyLimit = 0 then { cfg with Connect := { cfg.Connect with DailyLimit := 10 } } else cfg

/-- `if cfg.Messaging.DailyLimit == 0 { cfg.Messaging.DailyLimit = ... }` (lines 94-96). -/
def defaultMessagingLimit (cfg : Config) : Config :=
  if cfg.Messaging.DailyLimit = 0 then { cfg with Messaging := { cfg.Messaging with DailyLimit := 10 } } else cfg

/-- `if cfg.Search.PageDelayMin == 0 { cfg.Search.PageDelayMin = ... }` (lines 97-99). -/
def defaultPageDelayMin (cfg : Config) : Config :=
  if cfg.Search.PageDelayMin = 0 then { cfg with Search := { cfg.Search with PageDelayMin := 2 * second } } else cfg

/-- `if cfg.Search.PageDelayMax == 0 { cfg.Search.PageDelayMax = ... }` (lines 100-102). -/
def defaultPageDelayMax (cfg : Config) : Config :=
  if cfg.Search.PageDelayMax = 0 then { cfg with Search := { cfg.Search with PageDelayMax := 5 * second } } else cfg

/-- `if cfg.Connect.ActionDelayMin == 0 { cfg.Connect.ActionDelayMin = ... }` (lines 103-105). -/
def defaultConnectDelayMin (cfg : Config) : Config :=
  if cfg.Connect.ActionDelayMin = 0 then { cfg with Connect := { cfg.Connect with ActionDelayMin := 2 * second } } else cfg

/-- `if cfg.Connect.ActionDelayMax == 0 { cfg.Connect.ActionDelayMax = ... }` (lines 106-108). -/
def defaultConnectDelayMax (cfg : Config) : Config :=
  if cfg.Connect.ActionDelayMax = 0 then { cfg with Connect := { cfg.Connect with ActionDelayMax := 5 * second } } else cfg

/-- `if cfg.Messaging.ActionDelayMin == 0 { cfg.Messaging.ActionDelayMin = ... }` (lines 109-111). -/
def defaultMessagingDelayMin (cfg : Config) : Config :=
  if cfg.Messaging.ActionDelayMin = 0 then { cfg with Messaging := { cfg.Messaging with ActionDelayMin := 2 * second } } else cfg

/-- `if cfg.Messaging.ActionDelayMax == 0 { cfg.Messaging.ActionDelayMax = ... }` (lines 112-114). -/
def defaultMessagingDelayMax (cfg : Config) : Config :=
  if cfg.Messaging.ActionDelayMax = 0 then { cfg with Messaging := { cfg.Messaging with ActionDelayMax := 5 * second } } else cfg

/-- `if cfg.Database.DSN == "" { cfg.Database.DSN = ... }` (lines 115-117). -/
def defaultDSN (cfg : Config) : Config :=
  if cfg.Database.DSN = "" then { cfg with Database := { cfg.Database with DSN := "file:linkedin_poc.db?_fk=1" } } else cfg

/-- `applyDefaults(cfg)`: the configuration after the call, the twelve
defaults applied in the order of the source. -/
def applyDefaults (cfg : Config) : Config :=
  defaultDSN (defaultMessagingDelayMax (defaultMessagingDelayMin (defaultConnectDelayMax
    (defaultConnectDelayMin (defaultPageDelayMax (defaultPageDelayMin (defaultMessagingLimit
      (defaultConnectLimit (defaultMaxPages (defaultViewportHeight
        (defaultViewportWidth cfg)))))))))))

/-- `Load(path)`: `file` is what `os.ReadFile` and `yaml.Unmarshal` make of the
file at `path` (the decoded configuration, or the error of either call),
`envDSN` the value of the environment variable `SQLITE_DSN`. -/
def Load (file : Except Error Config) (envDSN : String) : Except Error Config :=
  match file with
  | .error e => .error e
  | .ok cfg =>
    let cfg := applyDefaults cfg
    match validate cfg with
    | some e => .error e
    | none =>
      if envDSN != "" then .ok { cfg with Database := { cfg.Database with DSN := envDSN } }
      else .ok cfg

/-- A configuration file that sets the keywords and the two daily limits and
leaves everything else unset (zero values). -/
def demoConfig (keywords : List String) (connectLimit messagingLimit : Int) : Config where
  Browser := ⟨false, 0, 0, ""⟩
  Database := ⟨""⟩
  Search := ⟨keywords, 0, 0, 0⟩
  Connect := ⟨connectLimit, "", 0, 0⟩
  Messaging := ⟨[], 0, messagingLimit, 0, 0⟩

/-! ## `internal/auth/login.go` -/

/-- What the environment answers during one call of `Login`. -/
structure LoginWorld where
  pageFault : Fault
  /-- `loadCookies(ctx, br, log)`: an error when the cookie file is missing or
  unreadable, or when the browser refuses the cookies. -/
  loadCookies : Fault
  /-- `page.Navigate("https://www.linkedin.com/feed/")`. -/
  feedNavigate : Fault
  /-- What `page.Info()` answers at each iteration of the loop of
  `waitForURLContains` that starts before the deadline: the URL, `none` on
  error. -/
  probe : List (Option String)
  /-- `page.Navigate("https://www.linkedin.com/login")`. -/
  loginNavigate : Fault
  /-- `page.Timeout(20 * time.Second).WaitLoad()`. -/
  loginLoad : Fault
  /-- `page.Element(sel)` gives an element and no error, while the username
  field is looked for. -/
  usernameElement : String → Bool
  usernameInput : Fault
  /-- The same while the password field is looked for. -/
  passwordElement : String → Bool
  passwordInput : Fault
  /-- `page.MustElement("button[type=submit]")` finds the button (it panics
  otherwise). -/
  submitFound : Bool
  submitClick : Fault
  /-- `page.Timeout(30 * time.Second).WaitLoad()` after the submit. -/
  postLoad : Fault
  /-- `page.Info()` after the login: the URL, `none` on error. -/
  info : Option String
  /-- `saveCookies(ctx, br, log)`. -/
  saveCookies : Fault

/-- The externally visible steps of `Login`. -/
inductive LoginEvent where
  | restoreCookies
  | navigate (url : String)
  | probe
  | waitLoad
  | input (selector : String) (text : String)
  | clickSubmit
  | warnCheckpoint
  | saveCookies
  | warnCookies
deriving DecidableEq, Repr

/-- Outcome of `Login`. -/
structure LoginResult where
  trace : List LoginEvent
  exit : Exit
deriving DecidableEq, Repr

/-- `waitForURLContains(page, needle, timeout)`: the returned error. -/
def waitForURLContains (polls : List (Option String)) (needle : String) : Option Error :=
  match polls with
  | [] => some "timeout waiting for target URL"
  | info :: rest =>
    match info with
    | some url =>
      if url != "" && stringsContains url needle then none
      else waitForURLContains rest needle
    | none => waitForURLContains rest needle

/-- `firstExistingElement(page, selectors)`: the first selector for which
`page.Element` gives an element, or the error. -/
def firstExistingElement (element : String → Bool) (selectors : List String) :
    Except Error String :=
  match selectors.find? element with
  | some sel => .ok sel
  | none => .error ("no matching element for selectors: [" ++ " ".intercalate selectors ++ "]")

def usernameSelectors : List String :=
  ["#username", "#session_key", "input[name=session_key]", "input[name='session_key']"]

def passwordSelectors : List String :=
  ["#password", "#session_password", "input[name=session_password]",
    "input[name='session_password']"]

/-- The end of `Login`, once the page has loaded after the submit
(login.go lines 96-112). -/
def postLoginInspect (w : LoginWorld) (tr : List LoginEvent) : LoginResult :=
  let tr :=
    match w.info with
    | some url =>
      if stringsContains url "checkpoint" || stringsContains url "challenge" then
        tr ++ [.warnCheckpoint]
      else tr
    | none => tr
  let tr := tr ++ [.saveCookies]
  match w.saveCookies with
  | some _ => ⟨tr ++ [.warnCookies], .returned none⟩
  | none => ⟨tr, .returned none⟩

/-- The fresh login (login.go lines 43-112), after the events `tr`. -/
def freshLogin (w : LoginWorld) (email password : String) (tr : List LoginEvent) :
    LoginResult :=
  let tr := tr ++ [.navigate "https://www.linkedin.com/login"]
  match w.loginNavigate with
  | some e => ⟨tr, .returned (some ("navigate to login: " ++ e))⟩
  | none =>
    let tr := tr ++ [.waitLoad]
    match w.loginLoad with
    | some e => ⟨tr, .returned (some ("wait login page load: " ++ e))⟩
    | none =>
      match firstExistingElement w.usernameElement usernameSelectors with
      | .error e => ⟨tr, .returned (some ("locate username field: " ++ e))⟩
      | .ok usernameEl =>
        let tr := tr ++ [.input usernameEl email]
        match w.usernameInput with
        | some e => ⟨tr, .returned (some ("fill username: " ++ e))⟩
        | none =>
          match firstExistingElement w.passwordElement passwordSelectors with
          | .error e => ⟨tr, .returned (some ("locate password field: " ++ e))⟩
          | .ok passwordEl =>
            let tr := tr ++ [.input passwordEl password]
            match w.passwordInput with
            | some e => ⟨tr, .returned (some ("fill password: " ++ e))⟩
            | none =>
              if !w.submitFound then ⟨tr, .panicked⟩
              else
                let tr := tr ++ [.clickSubmit]
                match w.submitClick with
                | some e => ⟨tr, .returned (some ("click submit: " ++ e))⟩
                | none =>
                  let tr := tr ++ [.waitLoad]
                  match w.postLoad with
                  | some e => ⟨tr, .returned (some ("wait post‑login load: " ++ e))⟩
                  | none => postLoginInspect w tr

/-- The attempt to reuse the persisted session (login.go lines 33-41): the
events, and whether the session was found valid. -/
def restoreSession (w : LoginWorld) : List LoginEvent × Bool :=
  match w.loadCookies with
  | some _ => ([.restoreCookies], false)
  | none =>
    let tr := [.restoreCookies, .navigate "https://www.linkedin.com/feed/"]
    match w.feedNavigate with
    | some _ => (tr, false)
    | none =>
      match waitForURLContains w.probe "linkedin.com/feed" with
      | none => (tr ++ [.probe], true)
      | some _ => (tr ++ [.probe], false)

/-- `Login(ctx, br, store, email, password, log)`. -/
def Login (w : LoginWorld) (email password : String) : LoginResult :=
  match w.pageFault with
  | some e => ⟨[], .returned (some ("open blank page: " ++ e))⟩
  | none =>
    match restoreSession w with
    | (tr, true) => ⟨tr, .returned none⟩
    | (tr, false) => freshLogin w email password tr

/-- A login in which every call succeeds on a page that lands on `landing`;
the persisted session, when `cookies` says there is one, is probed with the
answers `probe`; persisting the cookies fails when `saveFails` says so. -/
def okLogin (cookies : Bool) (probe : List (Option String)) (landing : Option String)
    (saveFails : Bool) : LoginWorld where
  pageFault := none
  loadCookies := if cookies then none else some "open linkedin_session_cookies.json"
  feedNavigate := none
  probe := probe
  loginNavigate := none
  loginLoad := none
  usernameElement := fun sel => sel == "#session_key"
  usernameInput := none
  passwordElement := fun sel => sel == "#session_password"
  passwordInput := none
  submitFound := true
  submitClick := none
  postLoad := none
  info := landing
  saveCookies := if saveFails then some "write cookie file" else none

/-- The steps of the fresh login up to the page load after the submit all
succeed. -/
def FreshLoginLoads (w : LoginWorld) : Prop :=
  w.loginNavigate = none ∧ w.loginLoad = none
    ∧ (∃ sel, firstExistingElement w.usernameElement usernameSelectors = .ok sel)
    ∧ w.usernameInput = none
    ∧ (∃ sel, firstExistingElement w.passwordElement passwordSelectors = .ok sel)
    ∧ w.passwordInput = none ∧ w.submitFound = true ∧ w.submitClick = none
    ∧ w.postLoad = none

/-! ## Auxiliary definitions for the stealth primitives and the search -/

/-- The UTF-16 code units of a character: what a JavaScript string holds
for it. -/
def utf16 (c : Char) : List Nat :=
  if c.toNat < 0x10000 then [c.toNat]
  else [0xD800 + (c.toNat - 0x10000) / 0x400, 0xDC00 + (c.toNat - 0x10000) % 0x400]

/-- The UTF-16 code units of a text. -/
def utf16Units : List Char → List Nat
  | [] => []
  | c :: cs => utf16 c ++ utf16Units cs

/-- The digit for `n % 16` in the table `lowerhex` of package `strconv`. -/
def lowerhex (n : Nat) : Char := "0123456789abcdef".data.getD (n % 16) '0'

/-- The `d` hexadecimal digits of `n`, most significant first, as the escapes
`\x`, `\u` and `\U` of `strconv` write them. -/
def hexDigits (n : Nat) : Nat → List Char
  | 0 => []
  | d + 1 => lowerhex (n / 16 ^ d) :: hexDigits n d

/-- The character `\` (U+005C). -/
def backslash : Char := Char.ofNat 92

/-- The character `"` (U+0022). -/
def doubleQuote : Char := Char.ofNat 34

/-- `fmt.Sprintf("%q", string(r))` without the two quotes, that is
`strconv.Quote` on a string of one rune (`appendEscapedRune`); `isPrint` is
`strconv.IsPrint`. -/
def goQuoteRune (isPrint : Char → Bool) (r : Char) : List Char :=
  if r = doubleQuote ∨ r = backslash then [backslash, r]
  else if isPrint r then [r]
  else if r.toNat = 7 then [backslash, 'a']
  else if r.toNat = 8 then [backslash, 'b']
  else if r.toNat = 12 then [backslash, 'f']
  else if r.toNat = 10 then [backslash, 'n']
  else if r.toNat = 13 then [backslash, 'r']
  else if r.toNat = 9 then [backslash, 't']
  else if r.toNat = 11 then [backslash, 'v']
  else if r.toNat < 32 ∨ r.toNat = 127 then backslash :: 'x' :: hexDigits r.toNat 2
  else if r.toNat < 0x10000 then backslash :: 'u' :: hexDigits r.toNat 4
  else backslash :: 'U' :: hexDigits r.toNat 8

/-- The value of a hexadecimal digit. -/
def hexValue (c : Char) : Nat :=
  if 48 ≤ c.toNat ∧ c.toNat ≤ 57 then c.toNat - 48
  else if 97 ≤ c.toNat ∧ c.toNat ≤ 102 then c.toNat - 87
  else if 65 ≤ c.toNat ∧ c.toNat ≤ 70 then c.toNat - 55
  else 0

/-- The string value, in UTF-16 code units, of the JavaScript string literal
with the source text `src` between its quotes, for the escapes that
`goQuoteRune` writes: `\b \f \n \r \t \v`, `\xHH` and `\uHHHH` are escapes of
JavaScript; after a backslash any other character stands for itself (so
`\"` is `"`, a doubled backslash is one backslash, `\a` is `a` and `\U` is
`U`); a character without
backslash contributes its code units. -/
def jsStringValue : List Char → List Nat
  | [] => []
  | c :: rest =>
    if c = backslash then
      match rest with
      | [] => []
      | e :: rest =>
        if e = 'x' then
          match rest with
          | h1 :: h2 :: rest => (hexValue h1 * 16 + hexValue h2) :: jsStringValue rest
          | _ => []
        else if e = 'u' then
          match rest with
          | h1 :: h2 :: h3 :: h4 :: rest =>
            (((hexValue h1 * 16 + hexValue h2) * 16 + hexValue h3) * 16 + hexValue h4)
              :: jsStringValue rest
          | _ => []
        else if e = 'b' then 8 :: jsStringValue rest
        else if e = 'f' then 12 :: jsStringValue rest
        else if e = 'n' then 10 :: jsStringValue rest
        else if e = 'r' then 13 :: jsStringValue rest
        else if e = 't' then 9 :: jsStringValue rest
        else if e = 'v' then 11 :: jsStringValue rest
        else utf16 e ++ jsStringValue rest
    else utf16 c ++ jsStringValue rest

/-- What the script of `appendChar(page, r)` appends to `el.value`: the value
of the string literal that `%q` writes into the script for `string(r)`. -/
def appendedUnits (isPrint : Char → Bool) (r : Char) : List Nat :=
  jsStringValue (goQuoteRune isPrint r)

/-- The value of the focused element, in UTF-16 code units, after one event of
`TypeLikeHuman`: the script of `appendChar` sets it to `value + "..."`, the
script of `backspaceJS` to `value.slice(0, -1)`, which drops the last code
unit. The element is taken to keep the string it is given. -/
def applyEvent (isPrint : Char → Bool) (value : List Nat) : TypeEvent → List Nat
  | .append r => value ++ appendedUnits isPrint r
  | .backspace => value.dropLast
  | .sleep _ => value

/-- The value of the focused element after a trace, starting from `value`. -/
def applyEvents (isPrint : Char → Bool) (value : List Nat) (tr : List TypeEvent) :
    List Nat :=
  tr.foldl (applyEvent isPrint) value

/-- A stand-in for `strconv.IsPrint` that agrees with it on ASCII (the
characters from space to `~`) and on U+1F600, a symbol. -/
def demoIsPrint (c : Char) : Bool :=
  (32 ≤ c.toNat && c.toNat < 127) || c.toNat == 0x1F600

/-- Draws with a slip at every rune. -/
def slipDraws : Nat → KeyDraws := fun _ => ⟨0, 0, 0, 0⟩

/-- Draws without any slip. -/
def noSlipDraws : Nat → KeyDraws := fun _ => ⟨1 / 2, 0, 0, 0⟩

/-- The character U+1F600, outside the Basic Multilingual Plane. -/
def grinningFace : Char := Char.ofNat 0x1F600

/-- The character U+0007 (bell). -/
def bell : Char := Char.ofNat 7

/-- The edit operations of a trace: the events that are not sleeps. -/
def edits : List TypeEvent → List TypeEvent
  | [] => []
  | .sleep _ :: evs => edits evs
  | ev :: evs => ev :: edits evs

/-- The number of slips drawn for the runes number `j` to `j + n - 1`. -/
def slips (draws : Nat → KeyDraws) : Nat → Nat → Nat
  | _, 0 => 0
  | j, n + 1 => (if (draws j).float64 < 0.03 then 1 else 0) + slips draws (j + 1) n

/-- The edit operations a text calls for, from rune number `j`: for each rune
its append, preceded, when a slip is drawn, by the append of the nearby rune
and one delete. -/
def expectedEdits (draws : Nat → KeyDraws) : Nat → List Char → List TypeEvent
  | _, [] => []
  | j, r :: rest =>
    (if (draws j).float64 < 0.03 then [.append (randomNearbyRune r), .backspace] else [])
      ++ [.append r] ++ expectedEdits draws (j + 1) rest

/-- The divisor `time.Duration(speedFactor)` of the delay at point `i` of a
path of `len` points (mouse.go lines 30, 31 and 45). -/
def speedDivisor (m : GoMath) (len i : Nat) : Int :=
  float64ToInt64 (0.5 + 1.5 * m.Sin ((i : ℚ) / (len : ℚ) * m.Pi))

/-- The values of type `int64`. -/
def IsInt64 (x : Int) : Prop := -(2 ^ 63) ≤ x ∧ x < 2 ^ 63

/-- A search over two pages per keyword in which the first keyword shows the
profile "/in/a1" on its first page and "/in/a2" on its second, with a Next
button that takes the click, the second keyword shows "/in/b" and no Next
button, and every wait for the next page ends as `load` says. -/
def demoPaging (load : NavOutcome) : SearchWorld where
  pageFault := none
  keyword := fun k =>
    { canceled := false
      nav := .loaded
      info := some "https://www.linkedin.com/search/results/people/"
      info2 := none
      page := fun j =>
        { canceled := false
          int63n := fun _ => 0
          elementsFault := none
          links := [some (if k = 0 then (if j = 0 then "/in/a1" else "/in/a2") else "/in/b")]
          nextFound := decide (k = 0)
          nextClicked := true
          load := load } }

/-- Two pages per keyword, the default delays. -/
def demoPagingConfig (keywords : List String) : SearchConfig where
  Keywords := keywords
  MaxPages := 2
  PageDelayMin := 2000000000
  PageDelayMax := 5000000000

/-! ## Lemmas on the connect workflow -/

@[simp] theorem ConnectState.emit_store (s : ConnectState) (i : Nat) (p : String)
    (a : ConnectAction) : (s.emit i p a).store = s.store := rfl

@[simp] theorem ConnectState.emit_sentToday (s : ConnectState) (i : Nat) (p : String)
    (a : ConnectAction) : (s.emit i p a).sentToday = s.sentToday := rfl

@[simp] theorem ConnectState.emit_trace (s : ConnectState) (i : Nat) (p : String)
    (a : ConnectAction) : (s.emit i p a).trace = s.trace ++ [⟨i, p, a⟩] := rfl

@[simp] theorem ConnectState.emitSleeps_store (s : ConnectState) (i : Nat) (p : String)
    (effs : List TimingEffect) : (s.emitSleeps i p effs).store = s.store := by
  induction effs generalizing s with
  | nil => rfl
  | cons eff effs ih => cases eff <;> simp [ConnectState.emitSleeps, ih]

@[simp] theorem ConnectState.emitSleeps_sentToday (s : ConnectState) (i : Nat) (p : String)
    (effs : List TimingEffect) : (s.emitSleeps i p effs).sentToday = s.sentToday := by
  induction effs generalizing s with
  | nil => rfl
  | cons eff effs ih => cases eff <;> simp [ConnectState.emitSleeps, ih]

@[simp] theorem sendDialog_store (e : ConnectStep) (i : Nat) (p : String)
    (s : ConnectState) : (sendDialog e i p s).store = s.store := by
  unfold sendDialog
  cases e.addNoteFound <;> cases e.noteAreaFound <;> cases e.sendFound <;> rfl

@[simp] theorem sendDialog_sentToday (e : ConnectStep) (i : Nat) (p : String)
    (s : ConnectState) : (sendDialog e i p s).sentToday = s.sentToday := by
  unfold sendDialog
  cases e.addNoteFound <;> cases e.noteAreaFound <;> cases e.sendFound <;> rfl

theorem thinkTime_state (cfg : ConnectConfig) (e : ConnectStep) (i : Nat)
    (p : String) (s : ConnectState) :
    (thinkTime cfg e i p s).state
      = s.emitSleeps i p (RandomDelay e.int63n cfg.ActionDelayMin cfg.ActionDelayMax).effects := by
  unfold thinkTime
  by_cases h : (RandomDelay e.int63n cfg.ActionDelayMin cfg.ActionDelayMax).panicked = true <;>
    simp [Flow.state, h]

@[simp] theorem thinkTime_store (cfg : ConnectConfig) (e : ConnectStep) (i : Nat)
    (p : String) (s : ConnectState) : (thinkTime cfg e i p s).state.store = s.store := by
  rw [thinkTime_state]; simp

@[simp] theorem thinkTime_sentToday (cfg : ConnectConfig) (e : ConnectStep) (i : Nat)
    (p : String) (s : ConnectState) :
    (thinkTime cfg e i p s).state.sentToday = s.sentToday := by
  rw [thinkTime_state]; simp

/-- What `recordSent` does to the ledger and the counter. -/
theorem recordSent_ledger (e : ConnectStep) (i : Nat) (p : String) (s : ConnectState) :
    ∃ new, (recordSent e i p s).store.sent_requests = s.store.sent_requests ++ new
      ∧ (new.length : Int) ≤ (recordSent e i p s).sentToday - s.sentToday
      ∧ (recordSent e i p s).store.messages = s.store.messages
      ∧ ((recordSent e i p s).sentToday = s.sentToday
          ∨ (recordSent e i p s).sentToday = s.sentToday + 1) := by
  unfold recordSent Storage.RecordRequest
  cases e.recordFault with
  | some err => exact ⟨[], by simp⟩
  | none =>
    by_cases h : (s.store.sent_requests.any (fun r => r.profile_url == p)) = true
    · exact ⟨[], by simp [h]⟩
    · exact ⟨[⟨p, e.now⟩], by simp [h]⟩

/-- The ledger only grows during the action on one target, by at most the
increase of the quota counter, which is 0 or 1. -/
theorem connectAction_ledger (cfg : ConnectConfig) (e : ConnectStep) (i : Nat) (p : String)
    (s : ConnectState) :
    ∃ new, (connectAction cfg e i p s).state.store.sent_requests
          = s.store.sent_requests ++ new
      ∧ (new.length : Int) ≤ (connectAction cfg e i p s).state.sentToday - s.sentToday
      ∧ (connectAction cfg e i p s).state.store.messages = s.store.messages
      ∧ ((connectAction cfg e i p s).state.sentToday = s.sentToday
          ∨ (connectAction cfg e i p s).state.sentToday = s.sentToday + 1) := by
  unfold connectAction
  cases e.nav with
  | failed => exact ⟨[], by simp [Flow.state]⟩
  | ctxDone => exact ⟨[], by simp [Flow.state]⟩
  | loaded =>
    cases e.connectFound with
    | false => exact ⟨[], by simp [Flow.state]⟩
    | true =>
      cases e.connectClicked with
      | false => exact ⟨[], by simp [Flow.state]⟩
      | true =>
        simpa using recordSent_ledger e i p
          (sendDialog e i p (((s.emit i p .navigate).emit i p .findConnect).emit i p
            .clickConnect))

/-- One iteration adds at most one row, counts every row it adds, and adds
none once the counter has reached the limit. -/
theorem connectIteration_ledger (cfg : ConnectConfig) (e : ConnectStep) (i : Nat)
    (p : String) (s : ConnectState) :
    ∃ new, (connectIteration cfg e i p s).state.store.sent_requests
          = s.store.sent_requests ++ new
      ∧ (new.length : Int) ≤ (connectIteration cfg e i p s).state.sentToday - s.sentToday
      ∧ (connectIteration cfg e i p s).state.store.messages = s.store.messages
      ∧ ((connectIteration cfg e i p s).state.sentToday = s.sentToday
          ∨ (s.sentToday < cfg.DailyLimit
              ∧ (connectIteration cfg e i p s).state.sentToday = s.sentToday + 1)) := by
  unfold connectIteration
  by_cases hc : e.canceled = true
  · exact ⟨[], by simp [hc, Flow.state]⟩
  · by_cases hq : s.sentToday ≥ cfg.DailyLimit
    · exact ⟨[], by simp [hc, hq, Flow.state]⟩
    · simp only [hc, hq, if_false, Bool.false_eq_true]
      cases hh : s.store.HasSentRequest e.hasFault p with
      | error err => exact ⟨[], by simp [Flow.state]⟩
      | ok b =>
        cases b with
        | true => exact ⟨[], by simp [Flow.state]⟩
        | false =>
          obtain ⟨new, h1, h2, h3, h4⟩ := connectAction_ledger cfg e i p (s.emit i p .lookup)
          refine ⟨new, by simpa using h1, by simpa using h2, by simpa using h3, ?_⟩
          rcases h4 with h4 | h4
          · exact Or.inl (by simpa using h4)
          · exact Or.inr ⟨by omega, by simpa using h4⟩

/-- The loop adds at most `max 0 (DailyLimit - sentToday)` rows to
`sent_requests` and leaves `messages` alone. -/
theorem connectLoop_ledger (cfg : ConnectConfig) (step : Nat → ConnectStep)
    (profiles : List String) :
    ∀ (i : Nat) (s : ConnectState),
    ∃ new, (connectLoop cfg step i profiles s).state.store.sent_requests
          = s.store.sent_requests ++ new
      ∧ (new.length : Int) ≤ max 0 (cfg.DailyLimit - s.sentToday)
      ∧ (connectLoop cfg step i profiles s).state.store.messages = s.store.messages := by
  induction profiles with
  | nil => intro i s; exact ⟨[], by simp [connectLoop]⟩
  | cons p rest ih =>
    intro i s
    obtain ⟨new, h1, h2, h3, h4⟩ := connectIteration_ledger cfg (step i) i p s
    unfold connectLoop
    cases hf : connectIteration cfg (step i) i p s with
    | leave r =>
      rw [hf] at h1 h2 h3 h4
      simp only [Flow.state] at h1 h2 h3 h4
      refine ⟨new, h1, ?_, h3⟩
      have := le_max_left (0 : Int) (cfg.DailyLimit - s.sentToday)
      have := le_max_right (0 : Int) (cfg.DailyLimit - s.sentToday)
      rcases h4 with h4 | ⟨h4, h5⟩ <;> omega
    | next s1 =>
      rw [hf] at h1 h2 h3 h4
      simp only [Flow.state] at h1 h2 h3 h4
      obtain ⟨new2, k1, k2, k3⟩ := ih (i + 1) s1
      refine ⟨new ++ new2, by simp [k1, h1], ?_, by simp [k3, h3]⟩
      have := le_max_left (0 : Int) (cfg.DailyLimit - s.sentToday)
      have := le_max_right (0 : Int) (cfg.DailyLimit - s.sentToday)
      have := le_max_left (0 : Int) (cfg.DailyLimit - s1.sentToday)
      have := le_max_right (0 : Int) (cfg.DailyLimit - s1.sentToday)
      have hm : max 0 (cfg.DailyLimit - s1.sentToday)
          ≤ max 0 (cfg.DailyLimit - s.sentToday) - (s1.sentToday - s.sentToday) := by
        rcases h4 with h4 | ⟨h4, h5⟩
        · rw [h4]; simp
        · rw [h5, max_eq_right (by omega), max_eq_right (by omega)]; omega
      simp only [List.length_append, Nat.cast_add]
      omega

theorem TraceExt.refl (i : Nat) (p : String) (s : ConnectState) : TraceExt i p s s :=
  ⟨[], by simp⟩

theorem TraceExt.trans {i : Nat} {p : String} {s1 s2 s3 : ConnectState}
    (h12 : TraceExt i p s1 s2) (h23 : TraceExt i p s2 s3) : TraceExt i p s1 s3 := by
  obtain ⟨e1, h1, k1⟩ := h12
  obtain ⟨e2, h2, k2⟩ := h23
  refine ⟨e1 ++ e2, by simp [h2, h1], ?_⟩
  intro ev hev
  rcases List.mem_append.mp hev with h | h
  · exact k1 ev h
  · exact k2 ev h

theorem TraceExt.emit (i : Nat) (p : String) (s : ConnectState) (a : ConnectAction) :
    TraceExt i p s (s.emit i p a) :=
  ⟨[⟨i, p, a⟩], by simp⟩

theorem TraceExt.emitSleeps (i : Nat) (p : String) (effs : List TimingEffect) :
    ∀ s : ConnectState, TraceExt i p s (s.emitSleeps i p effs) := by
  induction effs with
  | nil => intro s; exact TraceExt.refl i p s
  | cons eff effs ih =>
    intro s
    cases eff with
    | int63n n => exact ih s
    | sleep d => exact (TraceExt.emit i p s _).trans (ih _)

theorem TraceExt.sendDialog (e : ConnectStep) (i : Nat) (p : String) (s : ConnectState) :
    TraceExt i p s (sendDialog e i p s) := by
  unfold LinkedinAutomation.sendDialog
  cases e.addNoteFound <;> cases e.noteAreaFound <;> cases e.sendFound <;>
    simp only [if_true, if_false, Bool.false_eq_true]
  all_goals
    first
    | exact TraceExt.refl i p s
    | exact TraceExt.emit i p s _
    | exact (TraceExt.emit i p s _).trans (TraceExt.emit i p _ _)
    | exact ((TraceExt.emit i p s _).trans (TraceExt.emit i p _ _)).trans
        (TraceExt.emit i p _ _)

theorem TraceExt.recordSent (e : ConnectStep) (i : Nat) (p : String) (s : ConnectState) :
    TraceExt i p s (recordSent e i p s) := by
  unfold LinkedinAutomation.recordSent
  dsimp only
  split
  · exact TraceExt.emit i p s _
  · exact ⟨[⟨i, p, .record e.now⟩], by simp⟩

theorem TraceExt.connectAction (cfg : ConnectConfig) (e : ConnectStep) (i : Nat)
    (p : String) (s : ConnectState) :
    TraceExt i p s (connectAction cfg e i p s).state := by
  unfold LinkedinAutomation.connectAction
  have h1 := TraceExt.emit i p s .navigate
  cases e.nav with
  | failed => exact h1
  | ctxDone => exact h1
  | loaded =>
    have h2 := h1.trans (TraceExt.emit i p _ .findConnect)
    cases e.connectFound with
    | false => exact h2
    | true =>
      have h3 := h2.trans (TraceExt.emit i p _ .clickConnect)
      cases e.connectClicked with
      | false => exact h3
      | true =>
        simp only [Bool.not_true, Bool.false_eq_true, if_false]
        rw [thinkTime_state]
        exact ((h3.trans (TraceExt.sendDialog e i p _)).trans
          (TraceExt.recordSent e i p _)).trans (TraceExt.emitSleeps i p _ _)

theorem TraceExt.connectIteration (cfg : ConnectConfig) (e : ConnectStep) (i : Nat)
    (p : String) (s : ConnectState) :
    TraceExt i p s (connectIteration cfg e i p s).state := by
  unfold LinkedinAutomation.connectIteration
  by_cases hc : e.canceled = true
  · simpa [hc, Flow.state] using TraceExt.refl i p s
  · by_cases hq : s.sentToday ≥ cfg.DailyLimit
    · simpa [hc, hq, Flow.state] using TraceExt.refl i p s
    · simp only [hc, hq, if_false, Bool.false_eq_true]
      cases s.store.HasSentRequest e.hasFault p with
      | error err => exact TraceExt.emit i p s _
      | ok b =>
        cases b with
        | true => exact TraceExt.emit i p s _
        | false => exact (TraceExt.emit i p s _).trans (TraceExt.connectAction cfg e i p _)

/-- Every event the loop adds carries the position of a target of its list. -/
theorem connectLoop_trace_idx (cfg : ConnectConfig) (step : Nat → ConnectStep)
    (profiles : List String) :
    ∀ (i : Nat) (s : ConnectState),
      ∀ ev ∈ (connectLoop cfg step i profiles s).state.trace,
        ev ∈ s.trace ∨ (i ≤ ev.idx ∧ ev.idx < i + profiles.length) := by
  induction profiles with
  | nil => intro i s ev hev; exact Or.inl (by simpa [connectLoop] using hev)
  | cons p rest ih =>
    intro i s ev hev
    obtain ⟨evs, h1, h2⟩ := TraceExt.connectIteration cfg (step i) i p s
    unfold connectLoop at hev
    cases hf : connectIteration cfg (step i) i p s with
    | leave r =>
      rw [hf] at hev h1
      simp only [Flow.state] at h1
      rw [h1] at hev
      rcases List.mem_append.mp hev with h | h
      · exact Or.inl h
      · exact Or.inr ⟨by rw [(h2 ev h).1], by rw [(h2 ev h).1]; simp⟩
    | next s1 =>
      rw [hf] at hev h1
      simp only [Flow.state] at h1
      rcases ih (i + 1) s1 ev hev with h | ⟨h, h3⟩
      · rw [h1] at h
        rcases List.mem_append.mp h with h | h
        · exact Or.inl h
        · exact Or.inr ⟨by rw [(h2 ev h).1], by rw [(h2 ev h).1]; simp⟩
      · exact Or.inr ⟨by omega, by simp only [List.length_cons]; omega⟩

/-- A cancellation seen at the top of an iteration ends the loop there: the
targets from that position on play no part in the run. -/
theorem connectLoop_canceled (cfg : ConnectConfig) (step : Nat → ConnectStep)
    (target : String) (post : List String) (pre : List String) :
    ∀ (i : Nat) (s : ConnectState), (step (i + pre.length)).canceled = true →
      connectLoop cfg step i (pre ++ target :: post) s = connectLoop cfg step i pre s := by
  induction pre with
  | nil =>
    intro i s hc
    simp only [List.length_nil, Nat.add_zero] at hc
    simp [connectLoop, connectIteration, hc]
  | cons p rest ih =>
    intro i s hc
    simp only [List.cons_append, connectLoop]
    cases connectIteration cfg (step i) i p s with
    | leave r => rfl
    | next s1 =>
      exact ih (i + 1) s1 (by simpa [Nat.add_assoc, Nat.add_comm 1] using hc)

@[simp] theorem ConnectState.visited_emit (s : ConnectState) (i : Nat) (p : String)
    (a : ConnectAction) :
    (s.emit i p a).visited = s.visited ++ (if a = .navigate then [p] else []) := by
  unfold ConnectState.visited ConnectState.emit
  by_cases h : a = .navigate <;> simp [List.filter_append, List.filter_cons, h]

@[simp] theorem ConnectState.visited_emitSleeps (i : Nat) (p : String)
    (effs : List TimingEffect) :
    ∀ s : ConnectState, (s.emitSleeps i p effs).visited = s.visited := by
  induction effs with
  | nil => intro s; rfl
  | cons eff effs ih => intro s; cases eff <;> simp [ConnectState.emitSleeps, ih]

@[simp] theorem visited_sendDialog (e : ConnectStep) (i : Nat) (p : String)
    (s : ConnectState) : (sendDialog e i p s).visited = s.visited := by
  unfold sendDialog
  cases e.addNoteFound <;> cases e.noteAreaFound <;> cases e.sendFound <;> simp

theorem recordSent_trace (e : ConnectStep) (i : Nat) (p : String) (s : ConnectState) :
    (recordSent e i p s).trace = s.trace ++ [⟨i, p, .record e.now⟩] := by
  unfold recordSent
  dsimp only
  split <;> simp

@[simp] theorem visited_recordSent (e : ConnectStep) (i : Nat) (p : String)
    (s : ConnectState) : (recordSent e i p s).visited = s.visited := by
  unfold ConnectState.visited
  rw [recordSent_trace]
  simp [List.filter_append, List.filter_cons]

/-- A target that already has a row is looked up and skipped. -/
theorem connectLoop_skip (cfg : ConnectConfig) (step : Nat → ConnectStep) (i : Nat)
    (p : String) (rest : List String) (s : ConnectState)
    (hcancel : (step i).canceled = false) (hquota : s.sentToday < cfg.DailyLimit)
    (hfault : (step i).hasFault = none) (hrow : s.store.hasRow p = true) :
    connectLoop cfg step i (p :: rest) s
      = connectLoop cfg step (i + 1) rest (s.emit i p .lookup) := by
  have hq : ¬ s.sentToday ≥ cfg.DailyLimit := by omega
  have hh : s.store.HasSentRequest (step i).hasFault p = .ok true := by
    unfold Storage.HasSentRequest
    rw [hfault]
    exact congrArg Except.ok hrow
  simp [connectLoop, connectIteration, hcancel, hq, hh]

/-- A target without a row, in an iteration where nothing goes wrong, is
visited, recorded and counted. -/
theorem connectLoop_success (cfg : ConnectConfig) (step : Nat → ConnectStep) (i : Nat)
    (p : String) (rest : List String) (s : ConnectState)
    (hok : StepOk cfg (step i)) (hquota : s.sentToday < cfg.DailyLimit)
    (hrow : s.store.hasRow p = false) :
    ∃ s1, connectLoop cfg step i (p :: rest) s = connectLoop cfg step (i + 1) rest s1
      ∧ s1.store = ⟨s.store.sent_requests ++ [⟨p, (step i).now⟩], s.store.messages⟩
      ∧ s1.sentToday = s.sentToday + 1
      ∧ s1.visited = s.visited ++ [p] := by
  obtain ⟨hcancel, hfault, hnav, hfound, hclick, hrec, hpanic⟩ := hok
  have hq : ¬ s.sentToday ≥ cfg.DailyLimit := by omega
  have hh : s.store.HasSentRequest (step i).hasFault p = .ok false := by
    unfold Storage.HasSentRequest
    rw [hfault]
    exact congrArg Except.ok hrow
  have hrow2 : List.any s.store.sent_requests (fun r => r.profile_url == p) = false := hrow
  refine ⟨recordSent (step i) i p (sendDialog (step i) i p ((((s.emit i p .lookup).emit i p
      .navigate).emit i p .findConnect).emit i p .clickConnect)) |>.emitSleeps i p
      (RandomDelay (step i).int63n cfg.ActionDelayMin cfg.ActionDelayMax).effects, ?_, ?_, ?_, ?_⟩
  · simp [connectLoop, connectIteration, connectAction, thinkTime, hcancel, hq, hh, hnav,
      hfound, hclick, hpanic]
  · simp [recordSent, Storage.RecordRequest, hrec, hrow2]
  · simp [recordSent, Storage.RecordRequest, hrec, hrow2]
  · simp

/-- Once the counter has reached the limit, or when every remaining target
already has a row, the rest of the run visits nothing and writes nothing. -/
theorem connectLoop_idle (cfg : ConnectConfig) (step : Nat → ConnectStep)
    (rest : List String) :
    ∀ (i : Nat) (s : ConnectState),
      (∀ j, i ≤ j → j < i + rest.length →
          (step j).canceled = false ∧ (step j).hasFault = none) →
      (∀ t ∈ rest, s.store.hasRow t = true) →
      (connectLoop cfg step i rest s).exit = .returned none
      ∧ (connectLoop cfg step i rest s).state.store = s.store
      ∧ (connectLoop cfg step i rest s).state.sentToday = s.sentToday
      ∧ (connectLoop cfg step i rest s).state.visited = s.visited := by
  induction rest with
  | nil => intro i s _ _; simp [connectLoop]
  | cons p rest ih =>
    intro i s hstep hrows
    have h0 := hstep i (Nat.le_refl i) (by simp)
    by_cases hq : s.sentToday < cfg.DailyLimit
    · rw [connectLoop_skip cfg step i p rest s h0.1 hq h0.2 (hrows p (by simp))]
      have := ih (i + 1) (s.emit i p .lookup)
        (fun j h1 h2 => hstep j (by omega) (by simp only [List.length_cons]; omega))
        (fun t ht => hrows t (by simp [ht]))
      simpa using this
    · have hq2 : s.sentToday ≥ cfg.DailyLimit := by omega
      simp [connectLoop, connectIteration, h0.1, hq2]

/-- While the counter is below the limit, a stretch of targets that all have a
row is looked up and skipped. -/
theorem connectLoop_skip_all (cfg : ConnectConfig) (step : Nat → ConnectStep)
    (rest : List String) (pre : List String) :
    ∀ (i : Nat) (s : ConnectState),
      (∀ j, i ≤ j → j < i + pre.length →
          (step j).canceled = false ∧ (step j).hasFault = none) →
      (∀ t ∈ pre, s.store.hasRow t = true) → s.sentToday < cfg.DailyLimit →
      ∃ s1, connectLoop cfg step i (pre ++ rest) s
          = connectLoop cfg step (i + pre.length) rest s1
        ∧ s1.store = s.store ∧ s1.sentToday = s.sentToday ∧ s1.visited = s.visited := by
  induction pre with
  | nil => intro i s _ _ _; exact ⟨s, by simp⟩
  | cons p pre ih =>
    intro i s hstep hrows hq
    have h0 := hstep i (Nat.le_refl i) (by simp)
    obtain ⟨s1, k1, k2, k3, k4⟩ := ih (i + 1) (s.emit i p .lookup)
      (fun j h1 h2 => hstep j (by omega) (by simp only [List.length_cons]; omega))
      (fun t ht => hrows t (by simp [ht])) hq
    refine ⟨s1, ?_, by simpa using k2, by simpa using k3, by simpa using k4⟩
    rw [List.cons_append, connectLoop_skip cfg step i p (pre ++ rest) s h0.1 hq h0.2
      (hrows p (by simp)), k1]
    simp [Nat.add_assoc, Nat.add_comm 1]

/-- A run over targets of which exactly one has no row, the counter being below
the limit and nothing going wrong: that target alone is visited, one row is
written for it and the counter goes up by one. -/
theorem connectLoop_single_new (cfg : ConnectConfig) (step : Nat → ConnectStep)
    (pre : List String) (new : String) (post : List String) (s : ConnectState)
    (hok : ∀ j, j < (pre ++ new :: post).length → StepOk cfg (step j))
    (hpre : ∀ t ∈ pre, s.store.hasRow t = true)
    (hpost : ∀ t ∈ post, s.store.hasRow t = true)
    (hnew : s.store.hasRow new = false) (hq : s.sentToday < cfg.DailyLimit) :
    (connectLoop cfg step 0 (pre ++ new :: post) s).exit = .returned none
    ∧ (connectLoop cfg step 0 (pre ++ new :: post) s).state.store
        = ⟨s.store.sent_requests ++ [⟨new, (step pre.length).now⟩], s.store.messages⟩
    ∧ (connectLoop cfg step 0 (pre ++ new :: post) s).state.sentToday = s.sentToday + 1
    ∧ (connectLoop cfg step 0 (pre ++ new :: post) s).state.visited = s.visited ++ [new] := by
  have hlen : (pre ++ new :: post).length = pre.length + 1 + post.length := by
    simp only [List.length_append, List.length_cons]; omega
  obtain ⟨s1, k1, k2, k3, k4⟩ := connectLoop_skip_all cfg step (new :: post) pre 0 s
    (fun j _ h2 => ⟨(hok j (by omega)).1, (hok j (by omega)).2.1⟩) hpre hq
  rw [Nat.zero_add] at k1
  obtain ⟨s2, m1, m2, m3, m4⟩ := connectLoop_success cfg step pre.length new post s1
    (hok pre.length (by omega)) (by omega) (by rw [k2]; exact hnew)
  obtain ⟨n1, n2, n3, n4⟩ := connectLoop_idle cfg step post (pre.length + 1) s2
    (fun j _ h2 => ⟨(hok j (by omega)).1, (hok j (by omega)).2.1⟩)
    (by
      intro t ht
      have := hpost t ht
      unfold Storage.hasRow at this ⊢
      rw [m2, k2]
      simp only [List.any_append, this, Bool.true_or])
  rw [k1, m1]
  refine ⟨n1, ?_, ?_, ?_⟩
  · rw [n2, m2, k2]
  · rw [n3, m3, k3]
  · rw [n4, m4, k4]

/-- With the counter at or above the limit the loop returns at once, whatever
targets it is given: nothing is looked up, visited or written. -/
theorem connectLoop_quota (cfg : ConnectConfig) (step : Nat → ConnectStep) (i : Nat)
    (profiles : List String) (s : ConnectState) (hq : s.sentToday ≥ cfg.DailyLimit) :
    connectLoop cfg step i profiles s = ⟨s, .returned none⟩ := by
  cases profiles with
  | nil => rfl
  | cons p rest =>
    by_cases hc : (step i).canceled = true
    · simp [connectLoop, connectIteration, hc]
    · simp [connectLoop, connectIteration, hc, hq]

/-- The think time leaves the function only by the panic of `RandomDelay`. -/
theorem thinkTime_leave (cfg : ConnectConfig) (e : ConnectStep) (i : Nat) (p : String)
    (s : ConnectState) (r : ConnectResult) (h : thinkTime cfg e i p s = .leave r) :
    r.exit = .panicked
      ∧ (RandomDelay e.int63n cfg.ActionDelayMin cfg.ActionDelayMax).panicked = true := by
  unfold thinkTime at h
  by_cases hp : (RandomDelay e.int63n cfg.ActionDelayMin cfg.ActionDelayMax).panicked = true
  · simp only [hp, if_true, Flow.leave.injEq] at h
    subst h
    exact ⟨rfl, hp⟩
  · simp [hp] at h

/-- An iteration leaves the function either by `return nil` or by the panic of
its think time. -/
theorem connectIteration_leave (cfg : ConnectConfig) (e : ConnectStep) (i : Nat)
    (p : String) (s : ConnectState) (r : ConnectResult)
    (h : connectIteration cfg e i p s = .leave r) :
    r.exit = .returned none
      ∨ (r.exit = .panicked
          ∧ (RandomDelay e.int63n cfg.ActionDelayMin cfg.ActionDelayMax).panicked = true) := by
  unfold connectIteration at h
  by_cases hc : e.canceled = true
  · simp only [hc, if_true, Flow.leave.injEq] at h
    subst h
    exact Or.inl rfl
  · by_cases hq : s.sentToday ≥ cfg.DailyLimit
    · simp only [hc, hq, if_true, if_false, Bool.false_eq_true, Flow.leave.injEq] at h
      subst h
      exact Or.inl rfl
    · simp only [hc, hq, if_false, Bool.false_eq_true] at h
      cases hh : s.store.HasSentRequest e.hasFault p with
      | error err => rw [hh] at h; simp at h
      | ok b =>
        rw [hh] at h
        cases b with
        | true => simp at h
        | false =>
          simp only at h
          unfold connectAction at h
          cases hnav : e.nav with
          | failed => rw [hnav] at h; simp at h
          | ctxDone => rw [hnav] at h; simp at h
          | loaded =>
            rw [hnav] at h
            by_cases hf : e.connectFound = true
            · by_cases hk : e.connectClicked = true
              · simp only [hf, hk, Bool.not_true, Bool.false_eq_true, if_false] at h
                exact Or.inr (thinkTime_leave cfg e i p _ r h)
              · simp [hf, hk] at h
            · simp [hf] at h

/-- The loop never returns an error: it ends by `return nil` or by the panic
of a think time; without such a panic at the positions of its targets it ends
by `return nil`. -/
theorem connectLoop_exit (cfg : ConnectConfig) (step : Nat → ConnectStep)
    (profiles : List String) :
    ∀ (i : Nat) (s : ConnectState),
      ((connectLoop cfg step i profiles s).exit = .returned none
        ∨ (connectLoop cfg step i profiles s).exit = .panicked)
      ∧ ((∀ j, i ≤ j → j < i + profiles.length →
            (RandomDelay (step j).int63n cfg.ActionDelayMin cfg.ActionDelayMax).panicked
              = false) →
          (connectLoop cfg step i profiles s).exit = .returned none) := by
  induction profiles with
  | nil => intro i s; simp [connectLoop]
  | cons p rest ih =>
    intro i s
    unfold connectLoop
    cases hf : connectIteration cfg (step i) i p s with
    | leave r =>
      rcases connectIteration_leave cfg (step i) i p s r hf with h | ⟨h, hp⟩
      · exact ⟨Or.inl h, fun _ => h⟩
      · refine ⟨Or.inr h, fun hno => ?_⟩
        have := hno i (Nat.le_refl i) (by simp)
        rw [hp] at this
        exact absurd this (by decide)
    | next s1 =>
      refine ⟨(ih (i + 1) s1).1, fun hno => (ih (i + 1) s1).2 ?_⟩
      intro j h1 h2
      exact hno j (by omega) (by simp only [List.length_cons]; omega)

/-! ## Lemmas on the typing primitive -/

theorem appends_append (a b : List TypeEvent) : appends (a ++ b) = appends a ++ appends b := by
  induction a with
  | nil => rfl
  | cons ev a ih => cases ev <;> simp [appends, ih]

theorem deletes_append (a b : List TypeEvent) : deletes (a ++ b) = deletes a + deletes b := by
  induction a with
  | nil => simp [deletes]
  | cons ev a ih =>
    cases ev with
    | append r => simpa [deletes] using ih
    | backspace =>
      show deletes (a ++ b) + 1 = deletes a + 1 + deletes b
      rw [ih]; omega
    | sleep d => simpa [deletes] using ih

/-- Without a slip and on a working page the loop appends the remaining runes
one by one and deletes nothing. -/
theorem typeLoop_no_slip (draws : Nat → KeyDraws) (text : List Char) :
    ∀ (j : Nat) (tr : List TypeEvent),
      (∀ n, j ≤ n → n < j + text.length → (draws n).float64 ≥ 0.03) →
      appends (typeLoop draws workingPage j text tr).trace = appends tr ++ text
      ∧ deletes (typeLoop draws workingPage j text tr).trace = deletes tr
      ∧ (typeLoop draws workingPage j text tr).err = none := by
  induction text with
  | nil => intro j tr _; simp [typeLoop]
  | cons r rest ih =>
    intro j tr h
    have h0 : ¬ (draws j).float64 < 0.03 := not_lt.mpr (h j (Nat.le_refl j) (by simp))
    obtain ⟨k1, k2, k3⟩ := ih (j + 1)
      (tr ++ [.append r] ++ [.sleep (randomKeystrokeDelay (draws j).charDelay)])
      (fun n h1 h2 => h n (by omega) (by simp only [List.length_cons]; omega))
    simp only [typeLoop, typeSlip, h0, if_false, workingPage]
    refine ⟨?_, ?_, k3⟩
    · rw [k1]; simp [appends_append, appends]
    · rw [k2]; simp [deletes_append, deletes]

/-- Without a slip, on any page, the loop deletes nothing and its appends are
the first runes of the text, in order: a failing script ends the sequence. -/
theorem typeLoop_no_slip_prefix (draws : Nat → KeyDraws) (page : Nat → KeyFaults)
    (text : List Char) :
    ∀ (j : Nat) (tr : List TypeEvent),
      (∀ n, j ≤ n → n < j + text.length → (draws n).float64 ≥ 0.03) →
      (∃ k, appends (typeLoop draws page j text tr).trace = appends tr ++ text.take k)
      ∧ deletes (typeLoop draws page j text tr).trace = deletes tr := by
  induction text with
  | nil => intro j tr _; exact ⟨⟨0, by simp [typeLoop]⟩, by simp [typeLoop]⟩
  | cons r rest ih =>
    intro j tr h
    have h0 : ¬ (draws j).float64 < 0.03 := not_lt.mpr (h j (Nat.le_refl j) (by simp))
    obtain ⟨⟨k, k1⟩, k2⟩ := ih (j + 1)
      (tr ++ [.append r] ++ [.sleep (randomKeystrokeDelay (draws j).charDelay)])
      (fun n h1 h2 => h n (by omega) (by simp only [List.length_cons]; omega))
    simp only [typeLoop, typeSlip, h0, if_false]
    cases (page j).char with
    | some e =>
      exact ⟨⟨1, by simp [appends_append, appends]⟩, by simp [deletes_append, deletes]⟩
    | none =>
      refine ⟨⟨k + 1, ?_⟩, ?_⟩
      · simp only []
        rw [k1]; simp [appends_append, appends]
      · simp only []
        rw [k2]; simp [deletes_append, deletes]

/-! ## Lemmas on the search workflow -/

theorem take_indexOf_eq_takeWhile (c : Char) (l : List Char) :
    l.take (l.indexOf c) = l.takeWhile (fun x => x != c) := by
  induction l with
  | nil => rfl
  | cons a l ih =>
    by_cases h : a = c
    · subst h; simp [List.indexOf_cons, List.takeWhile_cons]
    · have h2 : (a == c) = false := by simpa using h
      simp [List.indexOf_cons, List.takeWhile_cons, h2, h, ih]

theorem not_mem_takeWhile_ne (c : Char) (l : List Char) :
    c ∉ l.takeWhile (fun x => x != c) := by
  intro hc
  have := List.mem_takeWhile_imp hc
  simp at this

/-- What the loop body of `extractProfileURLs` yields for one address: nothing
without "/in/"; else the address itself when it starts with `?`, and the part
before its first `?` otherwise. -/
theorem profileTarget_eq (u : String) :
    profileTarget u
      = if stringsContains u "/in/" then
          some (if u.data.head? = some '?' then u else truncateAtQuery u)
        else none := by
  unfold profileTarget
  by_cases hc : stringsContains u "/in/" = true
  · simp only [hc, if_true]
    unfold stringsIndex truncateAtQuery
    by_cases hm : '?' ∈ u.data
    · simp only [hm, if_true]
      by_cases h0 : u.data.indexOf '?' = 0
      · have hhead : u.data.head? = some '?' := by
          cases hd : u.data with
          | nil => rw [hd] at hm; simp at hm
          | cons a l =>
            rw [hd] at h0
            by_cases ha : a = '?'
            · simp [ha]
            · have h2 : (a == '?') = false := by simpa using ha
              simp [List.indexOf_cons, h2] at h0
        simp [h0, hhead]
      · have hpos : ((u.data.indexOf '?' : Nat) : Int) > 0 := by omega
        have hhead : u.data.head? ≠ some '?' := by
          intro hh
          cases hd : u.data with
          | nil => rw [hd] at hh; simp at hh
          | cons a l =>
            rw [hd] at hh h0
            simp only [List.head?_cons, Option.some.injEq] at hh
            subst hh
            simp [List.indexOf_cons] at h0
        simp only [hpos, if_true, hhead, if_false, Int.toNat_ofNat]
        rw [take_indexOf_eq_takeWhile]
    · have hhead : u.data.head? ≠ some '?' := by
        intro hh
        cases hd : u.data with
        | nil => rw [hd] at hh; simp at hh
        | cons a l =>
          rw [hd] at hh hm
          simp only [List.head?_cons, Option.some.injEq] at hh
          subst hh
          simp at hm
      have htw : u.data.takeWhile (fun x => x != '?') = u.data := by
        rw [List.takeWhile_eq_self_iff]
        intro x hx
        have : x ≠ '?' := fun h => hm (h ▸ hx)
        simpa using this
      simp [hm, hhead, htw]
  · simp [hc]

/-- The keyword loop never returns an error. -/
theorem keywordLoop_no_error (cfg : SearchConfig) (keyword : Nat → KeywordStep)
    (keywords : List String) :
    ∀ (k : Nat) (unique : List String) (e : Error),
      (keywordLoop cfg keyword k keywords unique).exit ≠ .returned (some e) := by
  induction keywords with
  | nil => intro k unique e; simp [keywordLoop]
  | cons kw rest ih =>
    intro k unique e
    unfold keywordLoop
    dsimp only
    split
    · simp
    · split
      · exact ih _ _ _
      · exact ih _ _ _
      · split
        · exact ih _ _ _
        · split
          · exact ih _ _ _
          · simp
          · simp

/-! ## Lemmas on the mouse primitive -/

/-- The path starts at `(x0, y0)`. -/
theorem bezierPath_cons (float64 : Nat → ℚ) (x0 y0 x3 y3 : ℚ) (steps : Nat) :
    ∃ rest, bezierPath float64 x0 y0 x3 y3 steps = (x0, y0) :: rest := by
  unfold bezierPath
  rw [List.range_succ_eq_map]
  simp

/-- At the first point of a path the speed factor is 0.5, which converts to the
duration 0: the division of the delay panics right after the first event. -/
theorem mouseLoop_first_point (m : GoMath) (rnd : MouseDraws) (len : Nat) (p : ℚ × ℚ)
    (rest : List (ℚ × ℚ)) :
    mouseLoop m rnd len 0 (p :: rest) ⟨[], [], false⟩
      = ⟨[(p.1 + (rnd.Float64 8 - 0.5) * 1.5, p.2 + (rnd.Float64 9 - 0.5) * 1.5)], [], true⟩ := by
  have h : float64ToInt64 (0.5 + 1.5 * m.Sin (((0 : Nat) : ℚ) / (len : ℚ) * m.Pi)) = 0 := by
    norm_num [float64ToInt64, m.sin_zero]
    rfl
  simp only [mouseLoop, h, if_true]
  simp

/-- Every call dispatches one event, at the jittered start point, and panics. -/
theorem MoveMouseHumanly_first_point (m : GoMath) (rnd : MouseDraws) (targetX targetY : ℚ) :
    (MoveMouseHumanly m rnd targetX targetY).panicked = true
    ∧ (MoveMouseHumanly m rnd targetX targetY).events
        = [(10.0 + rnd.Float64 0 * 20 + (rnd.Float64 8 - 0.5) * 1.5,
            10.0 + rnd.Float64 1 * 20 + (rnd.Float64 9 - 0.5) * 1.5)]
    ∧ (MoveMouseHumanly m rnd targetX targetY).sleeps = [] := by
  unfold MoveMouseHumanly
  obtain ⟨rest, hrest⟩ := bezierPath_cons (fun n => rnd.Float64 (4 + n))
    (10.0 + rnd.Float64 0 * 20) (10.0 + rnd.Float64 1 * 20)
    (targetX + (rnd.Float64 2 - 0.5) * 20) (targetY + (rnd.Float64 3 - 0.5) * 20) 80
  simp only [hrest, mouseLoop_first_point, if_true]
  simp

/-! ## Lemmas on the delay -/

theorem wrapInt64_of_isInt64 (x : Int) (h : IsInt64 x) : wrapInt64 x = x := by
  unfold IsInt64 at h
  unfold wrapInt64
  norm_num at h ⊢
  rw [Int.emod_eq_of_lt (by omega) (by omega)]
  omega

/-- Equal positive bounds pass the guard and hand 0 to `rand.Int63n`. -/
theorem RandomDelay_equal_bounds (int63n : Int → Int) (d : Int) (hd : 0 < d) :
    RandomDelay int63n d d = ⟨[.int63n 0], true⟩ := by
  have h1 : ¬ d ≤ 0 := by omega
  have h2 : wrapInt64 0 = 0 := rfl
  simp [RandomDelay, h1, h2]

/-! ## Lemmas on the typed text -/

theorem applyEvents_append (isPrint : Char → Bool) (b : List Nat) (x y : List TypeEvent) :
    applyEvents isPrint b (x ++ y) = applyEvents isPrint (applyEvents isPrint b x) y := by
  simp [applyEvents, List.foldl_append]

/-- Sleeps do not touch the value: a trace acts as its edit operations do. -/
theorem applyEvents_edits (isPrint : Char → Bool) (tr : List TypeEvent) :
    ∀ b : List Nat, applyEvents isPrint b tr = applyEvents isPrint b (edits tr) := by
  induction tr with
  | nil => intro b; rfl
  | cons ev tr ih =>
    intro b
    cases ev with
    | append r => simpa [applyEvents, edits, applyEvent] using ih _
    | backspace => simpa [applyEvents, edits, applyEvent] using ih _
    | sleep d => simpa [applyEvents, edits, applyEvent] using ih b

theorem edits_append (x y : List TypeEvent) : edits (x ++ y) = edits x ++ edits y := by
  induction x with
  | nil => rfl
  | cons ev x ih => cases ev <;> simp [edits, ih]

/-- On a working page the loop runs through the text: what it adds to the
trace has the edits the text calls for, and holds one extra append and one
delete per slip. -/
theorem typeLoop_working (draws : Nat → KeyDraws) (text : List Char) :
    ∀ (j : Nat) (tr : List TypeEvent),
      ∃ added, typeLoop draws workingPage j text tr = ⟨tr ++ added, none⟩
        ∧ edits added = expectedEdits draws j text
        ∧ (appends added).length = text.length + slips draws j text.length
        ∧ deletes added = slips draws j text.length := by
  induction text with
  | nil => intro j tr; exact ⟨[], by simp [typeLoop, edits, expectedEdits,
      appends, deletes, slips]⟩
  | cons r rest ih =>
    intro j tr
    by_cases hs : (draws j).float64 < 0.03
    · obtain ⟨added, k1, k2, k4, k5⟩ := ih (j + 1)
        (tr ++ [.append (randomNearbyRune r)]
          ++ [.sleep (randomKeystrokeDelay (draws j).typoDelay), .backspace]
          ++ [.sleep (randomKeystrokeDelay (draws j).backspaceDelay)]
          ++ [.append r] ++ [.sleep (randomKeystrokeDelay (draws j).charDelay)])
      refine ⟨[.append (randomNearbyRune r),
          .sleep (randomKeystrokeDelay (draws j).typoDelay), .backspace,
          .sleep (randomKeystrokeDelay (draws j).backspaceDelay), .append r,
          .sleep (randomKeystrokeDelay (draws j).charDelay)] ++ added, ?_, ?_, ?_, ?_⟩
      · simp only [typeLoop, typeSlip, hs, if_true, workingPage]
        rw [k1]; simp
      · simp [edits_append, edits, expectedEdits, hs, k2]
      · rw [appends_append, List.length_append, k4]
        simp only [appends, List.length_cons, List.length_nil, slips, hs, if_true]
        all_goals omega
      · rw [deletes_append, k5]
        simp only [deletes, List.length_cons, slips, hs, if_true]
    · obtain ⟨added, k1, k2, k4, k5⟩ := ih (j + 1)
        (tr ++ [.append r] ++ [.sleep (randomKeystrokeDelay (draws j).charDelay)])
      refine ⟨[.append r, .sleep (randomKeystrokeDelay (draws j).charDelay)] ++ added,
        ?_, ?_, ?_, ?_⟩
      · simp only [typeLoop, typeSlip, hs, if_false, workingPage]
        rw [k1]; simp
      · simp [edits_append, edits, expectedEdits, hs, k2]
      · rw [appends_append, List.length_append, k4]
        simp only [appends, List.length_cons, List.length_nil, slips, hs, if_false]
        all_goals omega
      · rw [deletes_append, k5]
        simp only [deletes, List.length_cons, slips, hs, if_false]

/-- What `TypeLikeHuman` does on a working page: its edit operations and their
numbers, and the value it leaves in the focused element. -/
theorem TypeLikeHuman_working (draws : Nat → KeyDraws) (text : String) :
    edits (TypeLikeHuman draws workingPage text).trace = expectedEdits draws 0 text.data
    ∧ (appends (TypeLikeHuman draws workingPage text).trace).length
        = text.length + slips draws 0 text.length
    ∧ deletes (TypeLikeHuman draws workingPage text).trace = slips draws 0 text.length
    ∧ (TypeLikeHuman draws workingPage text).err = none
    ∧ ∀ (isPrint : Char → Bool) (b : List Nat),
        applyEvents isPrint b (TypeLikeHuman draws workingPage text).trace
          = applyEvents isPrint b (expectedEdits draws 0 text.data) := by
  obtain ⟨added, k1, k2, k4, k5⟩ := typeLoop_working draws text.data 0 []
  have hlen : text.length = text.data.length := rfl
  unfold TypeLikeHuman
  rw [k1, hlen]
  refine ⟨by simpa using k2, by simpa using k4, by simpa using k5, rfl, ?_⟩
  intro isPrint b
  rw [applyEvents_edits]
  simp [k2]

/-- Where every rune of the text is appended as its own code units, and every
rune a slip types as a single code unit, the edits the text calls for turn any
value `b` into `b` followed by the text. -/
theorem applyEvents_expectedEdits (isPrint : Char → Bool) (draws : Nat → KeyDraws)
    (text : List Char)
    (h : ∀ r ∈ text, appendedUnits isPrint r = utf16 r
      ∧ ∃ u, appendedUnits isPrint (randomNearbyRune r) = [u]) :
    ∀ (j : Nat) (b : List Nat),
      applyEvents isPrint b (expectedEdits draws j text) = b ++ utf16Units text := by
  induction text with
  | nil => intro j b; simp [expectedEdits, applyEvents, utf16Units]
  | cons r rest ih =>
    intro j b
    obtain ⟨h1, u, h2⟩ := h r (List.mem_cons_self _ _)
    have ih2 := ih (fun x hx => h x (List.mem_cons_of_mem _ hx))
    by_cases hs : (draws j).float64 < 0.03
    · simp only [expectedEdits, hs, if_true, applyEvents_append]
      rw [ih2]
      simp [applyEvents, applyEvent, h1, h2, utf16Units]
    · simp only [expectedEdits, hs, if_false, applyEvents_append]
      rw [ih2]
      simp [applyEvents, applyEvent, h1, utf16Units]

/-! ## Lemmas on the configuration -/

@[simp] theorem defaultViewportWidth_connect_limit (cfg : Config) :
    (defaultViewportWidth cfg).Connect.DailyLimit = cfg.Connect.DailyLimit := by
  unfold defaultViewportWidth
  split <;> rfl

@[simp] theorem defaultViewportWidth_messaging_limit (cfg : Config) :
    (defaultViewportWidth cfg).Messaging.DailyLimit = cfg.Messaging.DailyLimit := by
  unfold defaultViewportWidth
  split <;> rfl

@[simp] theorem defaultViewportHeight_connect_limit (cfg : Config) :
    (defaultViewportHeight cfg).Connect.DailyLimit = cfg.Connect.DailyLimit := by
  unfold defaultViewportHeight
  split <;> rfl

@[simp] theorem defaultViewportHeight_messaging_limit (cfg : Config) :
    (defaultViewportHeight cfg).Messaging.DailyLimit = cfg.Messaging.DailyLimit := by
  unfold defaultViewportHeight
  split <;> rfl

@[simp] theorem defaultMaxPages_connect_limit (cfg : Config) :
    (defaultMaxPages cfg).Connect.DailyLimit = cfg.Connect.DailyLimit := by
  unfold defaultMaxPages
  split <;> rfl

@[simp] theorem defaultMaxPages_messaging_limit (cfg : Config) :
    (defaultMaxPages cfg).Messaging.DailyLimit = cfg.Messaging.DailyLimit := by
  unfold defaultMaxPages
  split <;> rfl

theorem defaultConnectLimit_connect_limit (cfg : Config) :
    (defaultConnectLimit cfg).Connect.DailyLimit
      = if cfg.Connect.DailyLimit = 0 then 10 else cfg.Connect.DailyLimit := by
  unfold defaultConnectLimit
  split <;> rfl

@[simp] theorem defaultConnectLimit_messaging_limit (cfg : Config) :
    (defaultConnectLimit cfg).Messaging.DailyLimit = cfg.Messaging.DailyLimit := by
  unfold defaultConnectLimit
  split <;> rfl

@[simp] theorem defaultMessagingLimit_connect_limit (cfg : Config) :
    (defaultMessagingLimit cfg).Connect.DailyLimit = cfg.Connect.DailyLimit := by
  unfold defaultMessagingLimit
  split <;> rfl

theorem defaultMessagingLimit_messaging_limit (cfg : Config) :
    (defaultMessagingLimit cfg).Messaging.DailyLimit
      = if cfg.Messaging.DailyLimit = 0 then 10 else cfg.Messaging.DailyLimit := by
  unfold defaultMessagingLimit
  split <;> rfl

@[simp] theorem defaultPageDelayMin_connect_limit (cfg : Config) :
    (defaultPageDelayMin cfg).Connect.DailyLimit = cfg.Connect.DailyLimit := by
  unfold defaultPageDelayMin
  split <;> rfl

@[simp] theorem defaultPageDelayMin_messaging_limit (cfg : Config) :
    (defaultPageDelayMin cfg).Messaging.DailyLimit = cfg.Messaging.DailyLimit := by
  unfold defaultPageDelayMin
  split <;> rfl

@[simp] theorem defaultPageDelayMax_connect_limit (cfg : Config) :
    (defaultPageDelayMax cfg).Connect.DailyLimit = cfg.Connect.DailyLimit := by
  unfold defaultPageDelayMax
  split <;> rfl

@[simp] theorem defaultPageDelayMax_messaging_limit (cfg : Config) :
    (defaultPageDelayMax cfg).Messaging.DailyLimit = cfg.Messaging.DailyLimit := by
  unfold defaultPageDelayMax
  split <;> rfl

@[simp] theorem defaultConnectDelayMin_connect_limit (cfg : Config) :
    (defaultConnectDelayMin cfg).Connect.DailyLimit = cfg.Connect.DailyLimit := by
  unfold defaultConnectDelayMin
  split <;> rfl

@[simp] theorem defaultConnectDelayMin_messaging_limit (cfg : Config) :
    (defaultConnectDelayMin cfg).Messaging.DailyLimit = cfg.Messaging.DailyLimit := by
  unfold defaultConnectDelayMin
  split <;> rfl

@[simp] theorem defaultConnectDelayMax_connect_limit (cfg : Config) :
    (defaultConnectDelayMax cfg).Connect.DailyLimit = cfg.Connect.DailyLimit := by
  unfold defaultConnectDelayMax
  split <;> rfl

@[simp] theorem defaultConnectDelayMax_messaging_limit (cfg : Config) :
    (defaultConnectDelayMax cfg).Messaging.DailyLimit = cfg.Messaging.DailyLimit := by
  unfold defaultConnectDelayMax
  split <;> rfl

@[simp] theorem defaultMessagingDelayMin_connect_limit (cfg : Config) :
    (defaultMessagingDelayMin cfg).Connect.DailyLimit = cfg.Connect.DailyLimit := by
  unfold defaultMessagingDelayMin
  split <;> rfl

@[simp] theorem defaultMessagingDelayMin_messaging_limit (cfg : Config) :
    (defaultMessagingDelayMin cfg).Messaging.DailyLimit = cfg.Messaging.DailyLimit := by
  unfold defaultMessagingDelayMin
  split <;> rfl

@[simp] theorem defaultMessagingDelayMax_connect_limit (cfg : Config) :
    (defaultMessagingDelayMax cfg).Connect.DailyLimit = cfg.Connect.DailyLimit := by
  unfold defaultMessagingDelayMax
  split <;> rfl

@[simp] theorem defaultMessagingDelayMax_messaging_limit (cfg : Config) :
    (defaultMessagingDelayMax cfg).Messaging.DailyLimit = cfg.Messaging.DailyLimit := by
  unfold defaultMessagingDelayMax
  split <;> rfl

@[simp] theorem defaultDSN_connect_limit (cfg : Config) :
    (defaultDSN cfg).Connect.DailyLimit = cfg.Connect.DailyLimit := by
  unfold defaultDSN
  split <;> rfl

@[simp] theorem defaultDSN_messaging_limit (cfg : Config) :
    (defaultDSN cfg).Messaging.DailyLimit = cfg.Messaging.DailyLimit := by
  unfold defaultDSN
  split <;> rfl

/-- `applyDefaults` replaces a connect daily limit of 0 by 10 and keeps any
other value. -/
theorem applyDefaults_connect_limit (cfg : Config) :
    (applyDefaults cfg).Connect.DailyLimit
      = if cfg.Connect.DailyLimit = 0 then 10 else cfg.Connect.DailyLimit := by
  unfold applyDefaults
  simp [defaultConnectLimit_connect_limit]

/-- `applyDefaults` replaces a messaging daily limit of 0 by 10 and keeps any
other value. -/
theorem applyDefaults_messaging_limit (cfg : Config) :
    (applyDefaults cfg).Messaging.DailyLimit
      = if cfg.Messaging.DailyLimit = 0 then 10 else cfg.Messaging.DailyLimit := by
  unfold applyDefaults
  simp [defaultMessagingLimit_messaging_limit]

/-- A configuration that `validate` accepts has no negative daily limit. -/
theorem validate_none_limits (cfg : Config) (h : validate cfg = none) :
    0 ≤ cfg.Connect.DailyLimit ∧ 0 ≤ cfg.Messaging.DailyLimit := by
  unfold validate at h
  by_cases hk : cfg.Search.Keywords.length = 0
  · simp [hk] at h
  · by_cases hc : cfg.Connect.DailyLimit < 0
    · simp [hk, hc] at h
    · by_cases hm : cfg.Messaging.DailyLimit < 0
      · simp [hk, hc, hm] at h
      · omega

/-- A negative daily limit makes `validate` return an error. -/
theorem validate_negative_limit (cfg : Config)
    (h : cfg.Connect.DailyLimit < 0 ∨ cfg.Messaging.DailyLimit < 0) :
    ∃ e, validate cfg = some e := by
  unfold validate
  by_cases hk : cfg.Search.Keywords.length = 0
  · exact ⟨"at least one search keyword must be configured", by simp [hk]⟩
  · by_cases hc : cfg.Connect.DailyLimit < 0
    · exact ⟨"connect.daily_limit cannot be negative", by simp [hk, hc]⟩
    · have hm : cfg.Messaging.DailyLimit < 0 := by
        rcases h with h | h
        · exact absurd h hc
        · exact h
      exact ⟨"messaging.daily_limit cannot be negative", by simp [hk, hc, hm]⟩

/-! ## Lemmas on the login -/

/-- A probe in which no answer shows the marker times out. -/
theorem waitForURLContains_timeout (needle : String) (polls : List (Option String))
    (h : ∀ url, some url ∈ polls → stringsContains url needle = false) :
    waitForURLContains polls needle = some "timeout waiting for target URL" := by
  induction polls with
  | nil => rfl
  | cons info rest ih =>
    have ih2 := ih (fun url hu => h url (List.mem_cons_of_mem _ hu))
    cases info with
    | none => simpa [waitForURLContains] using ih2
    | some url =>
      have hu := h url (List.mem_cons_self _ _)
      simpa [waitForURLContains, hu] using ih2

/-- The end of `Login` returns `nil` whatever the landing page is and whether
or not the cookies could be saved. -/
theorem postLoginInspect_exit (w : LoginWorld) (tr : List LoginEvent) :
    (postLoginInspect w tr).exit = .returned none := by
  unfold postLoginInspect
  cases w.saveCookies <;> rfl

/-- The end of `Login` keeps the events that precede it. -/
theorem mem_postLoginInspect (w : LoginWorld) (tr : List LoginEvent) (ev : LoginEvent)
    (hev : ev ∈ tr) : ev ∈ (postLoginInspect w tr).trace := by
  unfold postLoginInspect
  cases w.info with
  | none => cases w.saveCookies <;> simp [hev]
  | some url =>
    cases w.saveCookies <;>
      by_cases hc : (stringsContains url "checkpoint" || stringsContains url "challenge") = true <;>
      simp [hc, hev]

/-- The fresh login starts with the navigation to the login page. -/
theorem freshLogin_navigates (w : LoginWorld) (email password : String)
    (tr : List LoginEvent) :
    LoginEvent.navigate "https://www.linkedin.com/login"
      ∈ (freshLogin w email password tr).trace := by
  unfold freshLogin
  dsimp only
  repeat' split
  all_goals first
    | exact mem_postLoginInspect w _ _ (by simp)
    | simp

/-- A fresh login whose steps succeed up to the page load after the submit
returns `nil`, having filled both fields and clicked the submit button. -/
theorem freshLogin_loads (w : LoginWorld) (email password : String) (tr : List LoginEvent)
    (h : FreshLoginLoads w) :
    (freshLogin w email password tr).exit = .returned none
    ∧ LoginEvent.navigate "https://www.linkedin.com/login"
        ∈ (freshLogin w email password tr).trace
    ∧ LoginEvent.clickSubmit ∈ (freshLogin w email password tr).trace := by
  obtain ⟨h1, h2, ⟨u, h3⟩, h4, ⟨q, h5⟩, h6, h7, h8, h9⟩ := h
  have hpost : ∀ tr2 : List LoginEvent, ∀ ev ∈ tr2, ev ∈ (postLoginInspect w tr2).trace :=
    fun tr2 ev hev => mem_postLoginInspect w tr2 ev hev
  simp only [freshLogin, h1, h2, h3, h4, h5, h6, h7, h8, h9, Bool.not_true, Bool.false_eq_true,
    if_false]
  exact ⟨postLoginInspect_exit w _, hpost _ _ (by simp), hpost _ _ (by simp)⟩

/-! ## Claims -/

/-- C1. For every daily limit, initial ledger and list of targets, one run of
`SendConnectionRequests` only appends rows to `sent_requests`; with `c` the
number of rows in the current 24-hour window when the run starts, it appends at
most `max 0 (DailyLimit - c)` rows, hence at most `DailyLimit` rows when the
limit is not negative (and none when it is). -/
theorem SendConnectionRequests_daily_limit (w : ConnectWorld) (store : Storage)
    (cfg : ConnectConfig) (profiles : List String) :
    ∃ new : List SentRequest,
      (SendConnectionRequests w store cfg profiles).state.store.sent_requests
          = store.sent_requests ++ new
      ∧ (new.length : Int) ≤ max 0 (cfg.DailyLimit - priorCount w store)
      ∧ (new.length : Int) ≤ max 0 cfg.DailyLimit := by
  unfold SendConnectionRequests priorCount
  cases w.pageFault with
  | some e => exact ⟨[], by simp⟩
  | none =>
    unfold Storage.CountRequestsSince
    cases w.countFault with
    | some e => exact ⟨[], by simp⟩
    | none =>
      obtain ⟨new, h1, h2, _⟩ := connectLoop_ledger cfg w.step profiles 0
        ⟨store, ((store.sent_requests.filter
          (fun r => decide (truncateDay w.now ≤ r.sent_at))).length : Int), []⟩
      refine ⟨new, h1, h2, le_trans h2 (max_le_max le_rfl ?_)⟩
      have : (0 : Int) ≤ ((store.sent_requests.filter
          (fun r => decide (truncateDay w.now ≤ r.sent_at))).length : Int) :=
        Int.natCast_nonneg _
      simp only
      omega

/-- C2. For every sequence of `RecordRequest` calls, whatever their order,
repetitions and driver outcomes, the ledger built from the empty schema (and
from any ledger without duplicate targets) never holds two rows with the same
target; a call for a target that already has a row leaves the database
unchanged, first row and timestamp included, and is answered without error. -/
theorem RecordRequest_idempotent (calls : List (Fault × String × Int)) :
    (recordAll Storage.initSchema calls).UniqueTargets
    ∧ (∀ s : Storage, s.UniqueTargets → (recordAll s calls).UniqueTargets)
    ∧ (∀ (s : Storage) (profileURL : String) (when : Int) (row : SentRequest),
        row ∈ s.sent_requests → row.profile_url = profileURL →
          s.RecordRequest none profileURL when = .ok s) := by
  have key : ∀ (calls : List (Fault × String × Int)) (s : Storage),
      s.UniqueTargets → (recordAll s calls).UniqueTargets := by
    intro calls
    induction calls with
    | nil => intro s hs; exact hs
    | cons c cs ih =>
      intro s hs
      obtain ⟨fault, url, t⟩ := c
      unfold recordAll Storage.RecordRequest
      cases fault with
      | some e => exact ih s hs
      | none =>
        by_cases h : (s.sent_requests.any (fun r => r.profile_url == url)) = true
        · simp only [h, if_true]; exact ih s hs
        · simp only [h, if_false, Bool.false_eq_true]
          apply ih
          unfold Storage.UniqueTargets at hs ⊢
          simp only [List.map_append, List.map_cons, List.map_nil]
          rw [List.nodup_append]
          refine ⟨hs, List.nodup_singleton _, ?_⟩
          intro a ha hb
          rw [List.mem_singleton] at hb
          subst hb
          obtain ⟨r, hr, hra⟩ := List.mem_map.mp ha
          exact h (List.any_eq_true.mpr ⟨r, hr, by simpa using hra⟩)
  refine ⟨key calls _ (by simp [Storage.UniqueTargets, Storage.initSchema]), key calls, ?_⟩
  intro s url t row hrow hurl
  unfold Storage.RecordRequest
  have : (s.sent_requests.any (fun r => r.profile_url == url)) = true :=
    List.any_eq_true.mpr ⟨row, hrow, by simpa using hurl⟩
  simp [this]

/-- Witness of C2: recording "a", "b", "a" from the empty schema keeps two rows,
and the third call returns the database it was given. -/
theorem RecordRequest_idempotent_witness :
    (recordAll Storage.initSchema [(none, "a", 1), (none, "b", 2), (none, "a", 3)]).sent_requests
        = [⟨"a", 1⟩, ⟨"b", 2⟩]
    ∧ (⟨[⟨"a", 1⟩, ⟨"b", 2⟩], []⟩ : Storage).RecordRequest none "a" 3
        = .ok ⟨[⟨"a", 1⟩, ⟨"b", 2⟩], []⟩ :=
  ⟨by decide,
   (RecordRequest_idempotent []).2.2 ⟨[⟨"a", 1⟩, ⟨"b", 2⟩], []⟩ "a" 3 ⟨"a", 1⟩
     (by decide) rfl⟩

/-- Counterexample to C3 as stated: the cancellation signal is set before the
run starts, hence before the first target; the count query on the cancelled
context fails and the run returns that error, not `nil`, before its loop. -/
theorem SendConnectionRequests_canceled_before_start :
    (canceledAtStart.step ([] : List String).length).canceled = true
    ∧ (SendConnectionRequests canceledAtStart Storage.initSchema (okConfig 5)
        ([] ++ "a" :: ["b"])).exit = .returned (some "context canceled")
    ∧ (SendConnectionRequests canceledAtStart Storage.initSchema (okConfig 5)
        ([] ++ "a" :: ["b"])).exit ≠ .returned none := by
  decide

/-- C3 (amended). If the cancellation signal is seen at the top of the iteration
of the connect workflow for the target at position `pre.length` (target k,
k = pre.length + 1), the loop returns `nil` there with nothing done; the whole
run is the run on the targets before it, so every lookup, navigation, click and
record in the trace belongs to an earlier position, and at most k - 1 targets
have had an action attempted. Once the page is open and the count query has
succeeded the run returns no error, and it returns `nil` when no think time of
an earlier target panics. When the count query fails, as it does on a context
cancelled before the run starts, the run returns that error with nothing
done. -/
theorem SendConnectionRequests_canceled (w : ConnectWorld) (store : Storage)
    (cfg : ConnectConfig) (pre : List String) (target : String) (post : List String)
    (hc : (w.step pre.length).canceled = true) :
    (∀ s : ConnectState,
        connectLoop cfg w.step pre.length (target :: post) s = ⟨s, .returned none⟩)
    ∧ SendConnectionRequests w store cfg (pre ++ target :: post)
        = SendConnectionRequests w store cfg pre
    ∧ (∀ ev ∈ (SendConnectionRequests w store cfg (pre ++ target :: post)).state.trace,
        ev.idx < pre.length)
    ∧ (((SendConnectionRequests w store cfg (pre ++ target :: post)).state.trace.map
          (fun ev => ev.idx)).dedup.length < pre.length + 1)
    ∧ (w.pageFault = none → w.countFault = none →
        ∀ e : Error, (SendConnectionRequests w store cfg (pre ++ target :: post)).exit
          ≠ .returned (some e))
    ∧ (w.pageFault = none → w.countFault = none →
        (∀ j, j < pre.length →
          (RandomDelay (w.step j).int63n cfg.ActionDelayMin cfg.ActionDelayMax).panicked
            = false) →
        (SendConnectionRequests w store cfg (pre ++ target :: post)).exit = .returned none)
    ∧ (∀ e : Error, w.pageFault = none → w.countFault = some e →
        SendConnectionRequests w store cfg (pre ++ target :: post)
          = ⟨⟨store, 0, []⟩, .returned (some e)⟩) := by
  have hrun : SendConnectionRequests w store cfg (pre ++ target :: post)
      = SendConnectionRequests w store cfg pre := by
    unfold SendConnectionRequests
    cases w.pageFault with
    | some e => rfl
    | none =>
      dsimp only
      cases store.CountRequestsSince w.countFault (truncateDay w.now) with
      | error e => rfl
      | ok n => exact connectLoop_canceled cfg w.step target post pre 0 _ (by simpa using hc)
  have hidx : ∀ ev ∈ (SendConnectionRequests w store cfg (pre ++ target :: post)).state.trace,
      ev.idx < pre.length := by
    rw [hrun]
    unfold SendConnectionRequests
    cases w.pageFault with
    | some e => intro ev hev; simp at hev
    | none =>
      dsimp only
      cases store.CountRequestsSince w.countFault (truncateDay w.now) with
      | error e => intro ev hev; simp at hev
      | ok n =>
        intro ev hev
        rcases connectLoop_trace_idx cfg w.step pre 0 _ ev hev with h | h
        · simp at h
        · omega
  have hloop : ∀ hp : w.pageFault = none, ∀ hn : w.countFault = none,
      SendConnectionRequests w store cfg pre
        = connectLoop cfg w.step 0 pre ⟨store, priorCount w store, []⟩ := by
    intro hp hn
    simp [SendConnectionRequests, Storage.CountRequestsSince, hp, hn, priorCount]
  refine ⟨?_, hrun, hidx, ?_, ?_, ?_, ?_⟩
  · intro s
    simp [connectLoop, connectIteration, hc]
  · have hsub : ((SendConnectionRequests w store cfg (pre ++ target :: post)).state.trace.map
        (fun ev => ev.idx)).dedup ⊆ List.range pre.length := by
      intro n hn
      obtain ⟨ev, hev, rfl⟩ := List.mem_map.mp (List.mem_dedup.mp hn)
      exact List.mem_range.mpr (hidx ev hev)
    have hle := ((List.nodup_dedup _).subperm hsub).length_le
    rw [List.length_range] at hle
    omega
  · intro hp hn e
    rw [hrun, hloop hp hn]
    rcases (connectLoop_exit cfg w.step pre 0 ⟨store, priorCount w store, []⟩).1 with h | h
    · rw [h]; simp
    · rw [h]; simp
  · intro hp hn hno
    rw [hrun, hloop hp hn]
    exact (connectLoop_exit cfg w.step pre 0 ⟨store, priorCount w store, []⟩).2
      (fun j _ h2 => hno j (by omega))
  · intro e hp hn
    simp [SendConnectionRequests, Storage.CountRequestsSince, hp, hn]

/-- Witness of C3 (amended): with the signal seen at the top of the iteration of
the second of three targets, one target is visited and the run returns `nil`. -/
theorem SendConnectionRequests_canceled_witness :
    ((okWorld 0 true 1).step 1).canceled = true
    ∧ (SendConnectionRequests (okWorld 0 true 1) Storage.initSchema (okConfig 5)
        (["a"] ++ "b" :: ["c"])).state.visited = ["a"]
    ∧ (SendConnectionRequests (okWorld 0 true 1) Storage.initSchema (okConfig 5)
        (["a"] ++ "b" :: ["c"])).exit = .returned none
    ∧ SendConnectionRequests (okWorld 0 true 1) Storage.initSchema (okConfig 5)
        (["a"] ++ "b" :: ["c"])
        = SendConnectionRequests (okWorld 0 true 1) Storage.initSchema (okConfig 5) ["a"] :=
  ⟨rfl, by decide,
   (SendConnectionRequests_canceled (okWorld 0 true 1) Storage.initSchema (okConfig 5)
      ["a"] "b" ["c"] rfl).2.2.2.2.2.1 rfl rfl (fun _ _ => rfl),
   (SendConnectionRequests_canceled (okWorld 0 true 1) Storage.initSchema (okConfig 5)
      ["a"] "b" ["c"] rfl).2.1⟩

/-- C4, the code on every input and at a failing input: for every target and
every outcome of the random draws, `MoveMouseHumanly` dispatches exactly one
mouse-moved event, at the jittered start point, which does not depend on the
target, and then panics on the division by `time.Duration(speedFactor) = 0`;
the corrective move to `(targetX, targetY)` is never dispatched. For the target
(500, 300) with every draw at 0.5 the only event is at (20, 20). -/
theorem MoveMouseHumanly_panics :
    (∀ (m : GoMath) (rnd : MouseDraws) (targetX targetY : ℚ),
      (MoveMouseHumanly m rnd targetX targetY).panicked = true
      ∧ (MoveMouseHumanly m rnd targetX targetY).events
          = [(10.0 + rnd.Float64 0 * 20 + (rnd.Float64 8 - 0.5) * 1.5,
              10.0 + rnd.Float64 1 * 20 + (rnd.Float64 9 - 0.5) * 1.5)]
      ∧ (MoveMouseHumanly m rnd targetX targetY).sleeps = [])
    ∧ (MoveMouseHumanly demoMath demoDraws 500 300).panicked = true
    ∧ (MoveMouseHumanly demoMath demoDraws 500 300).events = [(20, 20)]
    ∧ (MoveMouseHumanly demoMath demoDraws 500 300).events.getLast? ≠ some (500, 300) := by
  have hd := MoveMouseHumanly_first_point demoMath demoDraws 500 300
  have hev : (MoveMouseHumanly demoMath demoDraws 500 300).events = [(20, 20)] := by
    rw [hd.2.1]
    norm_num [demoDraws]
  refine ⟨MoveMouseHumanly_first_point, hd.1, hev, ?_⟩
  rw [hev]
  norm_num

/-- Counterexample to C5 as stated: limit 2, targets "a", "b", "c", rows for "a"
and "b" written earlier in the current window (`priorCount = 2`), every step
succeeding: the run stops at the first quota check, visits nothing and writes
nothing. -/
theorem connect_scenario_counterexample :
    priorCount (okWorld 30 true 9) ⟨[⟨"a", 10⟩, ⟨"b", 20⟩], []⟩ = 2
    ∧ (["a", "b", "c"].filter (Storage.hasRow ⟨[⟨"a", 10⟩, ⟨"b", 20⟩], []⟩)).length = 2
    ∧ (SendConnectionRequests (okWorld 30 true 9) ⟨[⟨"a", 10⟩, ⟨"b", 20⟩], []⟩ (okConfig 2)
        ["a", "b", "c"]).state.trace = []
    ∧ (SendConnectionRequests (okWorld 30 true 9) ⟨[⟨"a", 10⟩, ⟨"b", 20⟩], []⟩ (okConfig 2)
        ["a", "b", "c"]).state.store = ⟨[⟨"a", 10⟩, ⟨"b", 20⟩], []⟩ := by
  decide

/-- C5 (amended). Daily limit 2, the page open and the count query answered.
With three targets of which exactly two already have connect records, fewer
than 2 records in the current 24-hour window, and a run in which nothing goes
wrong: exactly one target is visited, the one without a record; exactly one
row is written, for it; the run returns `nil` with its counter at
`priorCount + 1`, which is `min (priorCount + 1) 2`. With 2 or more records in
the window the run returns `nil` at the first check of its loop, for these
three targets as for any list of targets: nothing is looked up or visited, no
row is written and the counter stays at `priorCount`. -/
theorem connect_scenario (w : ConnectWorld) (store : Storage) (cfg : ConnectConfig)
    (t1 t2 t3 : String)
    (hlimit : cfg.DailyLimit = 2) (hpage : w.pageFault = none)
    (hcount : w.countFault = none) :
    ((∀ j, j < 3 → StepOk cfg (w.step j)) →
      ([t1, t2, t3].filter store.hasRow).length = 2 →
      priorCount w store < 2 →
      ∃ (k : Nat) (new : String), [t1, t2, t3][k]? = some new ∧ store.hasRow new = false
        ∧ (SendConnectionRequests w store cfg [t1, t2, t3]).state.visited = [new]
        ∧ (SendConnectionRequests w store cfg [t1, t2, t3]).state.store
            = ⟨store.sent_requests ++ [⟨new, (w.step k).now⟩], store.messages⟩
        ∧ (SendConnectionRequests w store cfg [t1, t2, t3]).state.sentToday
            = priorCount w store + 1
        ∧ (SendConnectionRequests w store cfg [t1, t2, t3]).state.sentToday
            = min (priorCount w store + 1) 2
        ∧ (SendConnectionRequests w store cfg [t1, t2, t3]).exit = .returned none)
    ∧ (2 ≤ priorCount w store →
        SendConnectionRequests w store cfg [t1, t2, t3]
          = ⟨⟨store, priorCount w store, []⟩, .returned none⟩)
    ∧ (∀ profiles : List String, 2 ≤ priorCount w store →
        SendConnectionRequests w store cfg profiles
          = ⟨⟨store, priorCount w store, []⟩, .returned none⟩) := by
  have hrunAll : ∀ profiles : List String, SendConnectionRequests w store cfg profiles
      = connectLoop cfg w.step 0 profiles ⟨store, priorCount w store, []⟩ := by
    intro profiles
    simp [SendConnectionRequests, Storage.CountRequestsSince, hpage, hcount, priorCount]
  have hstop : ∀ profiles : List String, 2 ≤ priorCount w store →
      SendConnectionRequests w store cfg profiles
        = ⟨⟨store, priorCount w store, []⟩, .returned none⟩ := by
    intro profiles h2
    rw [hrunAll]
    exact connectLoop_quota cfg w.step 0 profiles _ (by rw [hlimit]; exact h2)
  refine ⟨?_, hstop [t1, t2, t3], hstop⟩
  intro hok htwo hprior
  have hrun := hrunAll [t1, t2, t3]
  have hmin : priorCount w store + 1 = min (priorCount w store + 1) 2 := by
    rw [min_eq_left (by omega)]
  have hq : (⟨store, priorCount w store, []⟩ : ConnectState).sentToday < cfg.DailyLimit := by
    rw [hlimit]; exact hprior
  rw [hrun]
  cases h1 : store.hasRow t1 <;> cases h2 : store.hasRow t2 <;> cases h3 : store.hasRow t3 <;>
    simp [List.filter, h1, h2, h3] at htwo
  · obtain ⟨a, b, c, d⟩ := connectLoop_single_new cfg w.step [] t1 [t2, t3] _ hok
      (by simp) (by simp [h2, h3]) h1 hq
    exact ⟨0, t1, rfl, h1, by simpa [ConnectState.visited] using d, by simpa using b,
      by simpa using c, by rw [← hmin]; simpa using c, by simpa using a⟩
  · obtain ⟨a, b, c, d⟩ := connectLoop_single_new cfg w.step [t1] t2 [t3] _ hok
      (by simp [h1]) (by simp [h3]) h2 hq
    exact ⟨1, t2, rfl, h2, by simpa [ConnectState.visited] using d, by simpa using b,
      by simpa using c, by rw [← hmin]; simpa using c, by simpa using a⟩
  · obtain ⟨a, b, c, d⟩ := connectLoop_single_new cfg w.step [t1, t2] t3 [] _ hok
      (by simp [h1, h2]) (by simp) h3 hq
    exact ⟨2, t3, rfl, h3, by simpa [ConnectState.visited] using d, by simpa using b,
      by simpa using c, by rw [← hmin]; simpa using c, by simpa using a⟩

/-- Witness of C5 (amended): rows for "a" and "b" from an earlier window, "c"
new, limit 2. -/
theorem connect_scenario_witness :
    ∃ (k : Nat) (new : String), ["a", "b", "c"][k]? = some new
      ∧ Storage.hasRow ⟨[⟨"a", -10⟩, ⟨"b", -5⟩], []⟩ new = false
      ∧ (SendConnectionRequests (okWorld 30 true 9) ⟨[⟨"a", -10⟩, ⟨"b", -5⟩], []⟩
          (okConfig 2) ["a", "b", "c"]).state.visited = [new]
      ∧ (SendConnectionRequests (okWorld 30 true 9) ⟨[⟨"a", -10⟩, ⟨"b", -5⟩], []⟩
          (okConfig 2) ["a", "b", "c"]).state.store
          = ⟨[⟨"a", -10⟩, ⟨"b", -5⟩] ++ [⟨new, ((okWorld 30 true 9).step k).now⟩], []⟩
      ∧ (SendConnectionRequests (okWorld 30 true 9) ⟨[⟨"a", -10⟩, ⟨"b", -5⟩], []⟩
          (okConfig 2) ["a", "b", "c"]).state.sentToday
          = priorCount (okWorld 30 true 9) ⟨[⟨"a", -10⟩, ⟨"b", -5⟩], []⟩ + 1
      ∧ (SendConnectionRequests (okWorld 30 true 9) ⟨[⟨"a", -10⟩, ⟨"b", -5⟩], []⟩
          (okConfig 2) ["a", "b", "c"]).state.sentToday
          = min (priorCount (okWorld 30 true 9) ⟨[⟨"a", -10⟩, ⟨"b", -5⟩], []⟩ + 1) 2
      ∧ (SendConnectionRequests (okWorld 30 true 9) ⟨[⟨"a", -10⟩, ⟨"b", -5⟩], []⟩
          (okConfig 2) ["a", "b", "c"]).exit = .returned none :=
  (connect_scenario (okWorld 30 true 9) ⟨[⟨"a", -10⟩, ⟨"b", -5⟩], []⟩ (okConfig 2) "a" "b" "c"
    rfl rfl rfl).1
    (fun j hj => ⟨by simp only [okWorld, okStep, decide_eq_false_iff_not]; omega,
      rfl, rfl, rfl, rfl, rfl, rfl⟩)
    (by decide) (by decide)

/-- C6. For every pair of durations with `max < min`, `RandomDelay(min, max)`
draws no random number and performs exactly one sleep, of duration `min`. -/
theorem RandomDelay_degenerate (int63n : Int → Int) (min max : Int) (h : max < min) :
    RandomDelay int63n min max = ⟨[.sleep min], false⟩ := by
  simp [RandomDelay, h]

/-- Witness of C6: `RandomDelay(5s, 3s)` sleeps 5 s. -/
theorem RandomDelay_degenerate_witness :
    (3000000000 : Int) < 5000000000
    ∧ RandomDelay (fun _ => 7) 5000000000 3000000000 = ⟨[.sleep 5000000000], false⟩ :=
  ⟨by decide, RandomDelay_degenerate (fun _ => 7) 5000000000 3000000000 (by decide)⟩

/-- C7. For every text, when no slip is drawn (the draw of every rune is at
least 0.03), `TypeLikeHuman` on a page that evaluates its scripts emits exactly
one append per character of the text, in the order of the text, and no delete,
and returns `nil`. On any page at all it emits no delete, and its appends are
the leading characters of the text in order (an append that the page rejects
is the last one). -/
theorem TypeLikeHuman_no_slip (draws : Nat → KeyDraws) (text : String)
    (h : ∀ j, j < text.length → (draws j).float64 ≥ 0.03) :
    appends (TypeLikeHuman draws workingPage text).trace = text.data
    ∧ (appends (TypeLikeHuman draws workingPage text).trace).length = text.length
    ∧ deletes (TypeLikeHuman draws workingPage text).trace = 0
    ∧ (TypeLikeHuman draws workingPage text).err = none
    ∧ ∀ page : Nat → KeyFaults,
        deletes (TypeLikeHuman draws page text).trace = 0
        ∧ appends (TypeLikeHuman draws page text).trace <+: text.data := by
  have hlen : text.length = text.data.length := rfl
  obtain ⟨k1, k2, k3⟩ := typeLoop_no_slip draws text.data 0 []
    (fun n _ h2 => h n (by rw [hlen]; omega))
  unfold TypeLikeHuman
  have k1' : appends (typeLoop draws workingPage 0 text.data []).trace = text.data := by
    simpa [appends] using k1
  refine ⟨k1', by rw [k1', hlen], by simpa [deletes] using k2, k3, ?_⟩
  intro page
  obtain ⟨⟨k, m1⟩, m2⟩ := typeLoop_no_slip_prefix draws page text.data 0 []
    (fun n _ h2 => h n (by rw [hlen]; omega))
  refine ⟨by simpa [deletes] using m2, ?_⟩
  rw [m1]
  simpa [appends] using List.take_prefix k text.data

/-- Witness of C7: "abc" without a slip gives 3 appends, of 'a', 'b', 'c', and
0 deletes. -/
theorem TypeLikeHuman_no_slip_witness :
    appends (TypeLikeHuman (fun _ => ⟨1 / 2, 0, 0, 0⟩) workingPage "abc").trace = ['a', 'b', 'c']
    ∧ (appends (TypeLikeHuman (fun _ => ⟨1 / 2, 0, 0, 0⟩) workingPage "abc").trace).length = 3
    ∧ deletes (TypeLikeHuman (fun _ => ⟨1 / 2, 0, 0, 0⟩) workingPage "abc").trace = 0
    ∧ (TypeLikeHuman (fun _ => ⟨1 / 2, 0, 0, 0⟩) workingPage "abc").err = none :=
  have h := TypeLikeHuman_no_slip (fun _ => ⟨1 / 2, 0, 0, 0⟩) "abc" (fun _ _ => by norm_num)
  ⟨h.1, h.2.1, h.2.2.1, h.2.2.2.1⟩

/-- Counterexample to C8 as stated: an address that starts with `?` and
contains "/in/" is returned whole, `?` included, not truncated before its
first `?`. -/
theorem extractProfileURLs_keeps_leading_query :
    (extractProfileURLs none [some "?next=/in/bob"]).1 = ["?next=/in/bob"]
    ∧ (extractProfileURLs none [some "?next=/in/bob"]).1
        ≠ (([some "?next=/in/bob"].filterMap id).filter
            (fun u => stringsContains u "/in/")).map truncateAtQuery
    ∧ ∃ t ∈ (extractProfileURLs none [some "?next=/in/bob"]).1, '?' ∈ t.data := by
  decide

/-- C8 (amended). For every list of link addresses, `extractProfileURLs` returns,
in order, exactly the addresses that contain "/in/", each truncated just before
its first `?` unless that `?` is its first character, in which case the
address is returned whole; so a returned target contains a `?` only when it
starts with one. -/
theorem extractProfileURLs_spec (links : List (Option String)) :
    (extractProfileURLs none links).1
      = (((links.filterMap id).filter (fun u => stringsContains u "/in/")).map
          (fun u => if u.data.head? = some '?' then u else truncateAtQuery u))
    ∧ (extractProfileURLs none links).2 = none
    ∧ ∀ t ∈ (extractProfileURLs none links).1, '?' ∈ t.data → t.data.head? = some '?' := by
  have h1 : (extractProfileURLs none links).1
      = (((links.filterMap id).filter (fun u => stringsContains u "/in/")).map
          (fun u => if u.data.head? = some '?' then u else truncateAtQuery u)) := by
    unfold extractProfileURLs
    simp only
    induction links.filterMap id with
    | nil => rfl
    | cons u us ih =>
      rw [List.filterMap_cons, profileTarget_eq, ih]
      by_cases hc : stringsContains u "/in/" = true
      · simp [hc, List.filter_cons]
      · simp [hc, List.filter_cons]
  refine ⟨h1, rfl, ?_⟩
  rw [h1]
  intro t ht hq
  obtain ⟨u, _, rfl⟩ := List.mem_map.mp ht
  by_cases hh : u.data.head? = some '?'
  · simp [hh]
  · simp only [hh, if_false] at hq
    exact absurd hq (not_mem_takeWhile_ne '?' u.data)

/-- Witness of C8 (amended): of four anchors, one without `href`, the two
addresses with "/in/" are returned, the first cut before its `?`, the second,
which starts with `?`, whole. -/
theorem extractProfileURLs_spec_witness :
    (extractProfileURLs none
        [some "https://www.linkedin.com/in/alice?trk=1", some "/feed/?a=1", none,
          some "?next=/in/bob"]).1
      = ["https://www.linkedin.com/in/alice", "?next=/in/bob"] :=
  (extractProfileURLs_spec
    [some "https://www.linkedin.com/in/alice?trk=1", some "/feed/?a=1", none,
      some "?next=/in/bob"]).1.trans (by decide)

/-- C9, the code at the failing input: with two keywords, the first of which
yields one profile, and the cancellation signal seen at the top of the second
keyword iteration, `SearchProfiles` returns the empty list: the profile
accumulated from the first keyword (what a run over that keyword alone
returns) is dropped. When the same signal is first seen at the top of the
pagination loop of the second keyword, the accumulated profile is returned. -/
theorem SearchProfiles_cancel_returns_empty :
    SearchProfiles (demoSearch 1 9) (demoSearchConfig ["x", "y"]) = ⟨[], .returned none⟩
    ∧ SearchProfiles (demoSearch 1 9) (demoSearchConfig ["x"])
        = ⟨["https://www.linkedin.com/in/alice"], .returned none⟩
    ∧ SearchProfiles (demoSearch 9 1) (demoSearchConfig ["x", "y"])
        = ⟨["https://www.linkedin.com/in/alice"], .returned none⟩ := by
  decide

/-- Counterexample to C10 as stated: the Send button is not found, yet the
request is recorded and counted. -/
theorem connect_records_without_send :
    ((okWorld 0 false 9).step 0).sendFound = false
    ∧ (SendConnectionRequests (okWorld 0 false 9) Storage.initSchema (okConfig 5)
        ["p"]).state.store.sent_requests = [⟨"p", 1⟩]
    ∧ (SendConnectionRequests (okWorld 0 false 9) Storage.initSchema (okConfig 5)
        ["p"]).state.sentToday = 1 := by
  decide

/-- C10 (amended). In an iteration that gets past the cancellation, quota and
dedup checks: if navigation fails or times out, or the Connect button is not
found or cannot be clicked, then nothing is recorded for the target, the ledger
and the quota counter are unchanged and the loop goes on with the next target;
if the page loads and Connect is clicked, the request is recorded and counted
when the ledger write succeeds, whether or not the Send button is found or
takes the click. -/
theorem connect_failure_skips_target (cfg : ConnectConfig) (step : Nat → ConnectStep)
    (i : Nat) (p : String) (rest : List String) (s : ConnectState)
    (hcancel : (step i).canceled = false) (hquota : s.sentToday < cfg.DailyLimit)
    (hnew : s.store.HasSentRequest (step i).hasFault p = .ok false) :
    (((step i).nav ≠ .loaded ∨ (step i).connectFound = false
        ∨ (step i).connectClicked = false) →
      ∃ s1 evs, connectLoop cfg step i (p :: rest) s = connectLoop cfg step (i + 1) rest s1
        ∧ s1.store = s.store ∧ s1.sentToday = s.sentToday
        ∧ s1.trace = s.trace ++ evs ∧ ∀ ev ∈ evs, ∀ t, ev.action ≠ .record t)
    ∧ ((step i).nav = .loaded → (step i).connectFound = true →
        (step i).connectClicked = true → (step i).recordFault = none →
        (connectIteration cfg (step i) i p s).state.store.sent_requests
            = s.store.sent_requests ++ [⟨p, (step i).now⟩]
        ∧ (connectIteration cfg (step i) i p s).state.sentToday = s.sentToday + 1) := by
  have hq : ¬ s.sentToday ≥ cfg.DailyLimit := by omega
  constructor
  · intro hfail
    by_cases hnav : (step i).nav = .loaded
    · by_cases hfound : (step i).connectFound = true
      · have hclick : (step i).connectClicked = false := by
          rcases hfail with h | h | h
          · exact absurd hnav h
          · rw [hfound] at h; exact absurd h (by decide)
          · exact h
        exact ⟨_, [⟨i, p, .lookup⟩, ⟨i, p, .navigate⟩, ⟨i, p, .findConnect⟩,
          ⟨i, p, .clickConnect⟩],
          by simp [connectLoop, connectIteration, connectAction, hcancel, hq, hnew, hnav, hfound,
            hclick]; rfl,
          by simp, by simp, by simp, by simp⟩
      · have hfound2 : (step i).connectFound = false := by simpa using hfound
        exact ⟨_, [⟨i, p, .lookup⟩, ⟨i, p, .navigate⟩, ⟨i, p, .findConnect⟩],
          by simp [connectLoop, connectIteration, connectAction, hcancel, hq, hnew, hnav,
            hfound2]; rfl,
          by simp, by simp, by simp, by simp⟩
    · refine ⟨(s.emit i p .lookup).emit i p .navigate, [⟨i, p, .lookup⟩, ⟨i, p, .navigate⟩],
        ?_, by simp, by simp, by simp, by simp⟩
      simp only [connectLoop, connectIteration, connectAction, hcancel, hq, hnew, if_false,
        Bool.false_eq_true]
      cases hn : (step i).nav with
      | loaded => exact absurd hn hnav
      | failed => rfl
      | ctxDone => rfl
  · intro hnav hfound hclick hrec
    have hrow : List.any s.store.sent_requests (fun r => r.profile_url == p) = false := by
      unfold Storage.HasSentRequest at hnew
      cases hf : (step i).hasFault with
      | some e => rw [hf] at hnew; simp at hnew
      | none => rw [hf] at hnew; simpa using hnew
    simp [connectIteration, connectAction, hcancel, hq, hnew, hnav, hfound, hclick,
      recordSent, Storage.RecordRequest, hrec, hrow]

/-- Witness of C10 (amended): the navigation to "p" fails; the loop goes on to
"q" with an unchanged ledger and counter. -/
theorem connect_failure_skips_target_witness :
    ∃ s1 evs,
      connectLoop (okConfig 5) (fun _ => { okStep false true 1 with nav := .failed }) 0
          ("p" :: ["q"]) ⟨Storage.initSchema, 0, []⟩
        = connectLoop (okConfig 5) (fun _ => { okStep false true 1 with nav := .failed }) (0 + 1)
            ["q"] s1
      ∧ s1.store = Storage.initSchema ∧ s1.sentToday = 0
      ∧ s1.trace = [] ++ evs ∧ ∀ ev ∈ evs, ∀ t, ev.action ≠ .record t :=
  (connect_failure_skips_target (okConfig 5)
    (fun _ => { okStep false true 1 with nav := .failed }) 0 "p" ["q"]
    ⟨Storage.initSchema, 0, []⟩ rfl (by decide) rfl).1 (Or.inl (by decide))

/-- Counterexample to C11 as stated: two keywords, two pages allowed; the first
keyword shows "/in/a1" and then "/in/a2", the second "/in/b". When the wait for
the next page of the first keyword times out, the whole search ends: the second
keyword is never searched and "/in/b", which the run finds when the wait
succeeds or fails, is missing. -/
theorem SearchProfiles_page_load_outcomes :
    SearchProfiles (demoPaging .ctxDone) (demoPagingConfig ["x", "y"])
        = ⟨["/in/a1"], .returned none⟩
    ∧ SearchProfiles (demoPaging .failed) (demoPagingConfig ["x", "y"])
        = ⟨["/in/a1", "/in/a2", "/in/b"], .returned none⟩
    ∧ SearchProfiles (demoPaging .loaded) (demoPagingConfig ["x", "y"])
        = ⟨["/in/a1", "/in/a2", "/in/b"], .returned none⟩ := by
  decide

/-- C11 (amended). In `SearchProfiles` neither a failure nor a timeout while
waiting for the next results page makes the run fail: once the page is open no
run returns an error. A timeout of that wait ends the pagination with `break
keywordLoop`, and `break keywordLoop` ends the whole search: the targets
accumulated so far, those of the current page included, are returned, whatever
keywords remain. -/
theorem SearchProfiles_load_timeout (cfg : SearchConfig) :
    (∀ (w : SearchWorld) (e : Error), w.pageFault = none →
        (SearchProfiles w cfg).exit ≠ .returned (some e))
    ∧ (∀ (page : Nat → PageStep) (remaining pageIdx : Nat) (unique : List String),
        (page pageIdx).canceled = false →
        (RandomDelay (page pageIdx).int63n cfg.PageDelayMin cfg.PageDelayMax).panicked = false →
        (page pageIdx).nextFound = true → (page pageIdx).nextClicked = true →
        (page pageIdx).load = .ctxDone →
        paginate cfg page (remaining + 1) pageIdx unique
          = .breakKeywordLoop
              ((extractProfileURLs (page pageIdx).elementsFault (page pageIdx).links).1.foldl
                insertUnique unique))
    ∧ (∀ (keyword : Nat → KeywordStep) (k : Nat) (kw : String) (rest : List String)
        (unique found : List String),
        (keyword k).canceled = false → (keyword k).nav = .loaded →
        (isCheckpoint (keyword k).info && isCheckpoint (keyword k).info2) = false →
        paginate cfg (keyword k).page cfg.MaxPages.toNat 0 unique = .breakKeywordLoop found →
        keywordLoop cfg keyword k (kw :: rest) unique = ⟨found, .returned none⟩) := by
  refine ⟨?_, ?_, ?_⟩
  · intro w e hpage
    unfold SearchProfiles
    rw [hpage]
    exact keywordLoop_no_error cfg w.keyword cfg.Keywords 0 [] e
  · intro page remaining pageIdx unique hc hd hf hk hl
    simp [paginate, hc, hd, hf, hk, hl]
  · intro keyword k kw rest unique found hc hn hcp hp
    simp [keywordLoop, hc, hn, hcp, hp]

/-- Witness of C11 (amended): the wait after the first page of the first keyword
times out; the pagination, and with it the search over "x" and "y", ends with
the one profile of that page. -/
theorem SearchProfiles_load_timeout_witness :
    paginate (demoPagingConfig ["x", "y"]) ((demoPaging .ctxDone).keyword 0).page (1 + 1) 0 []
        = .breakKeywordLoop ["/in/a1"]
    ∧ keywordLoop (demoPagingConfig ["x", "y"]) (demoPaging .ctxDone).keyword 0 ("x" :: ["y"]) []
        = ⟨["/in/a1"], .returned none⟩ :=
  ⟨((SearchProfiles_load_timeout (demoPagingConfig ["x", "y"])).2.1
      ((demoPaging .ctxDone).keyword 0).page 1 0 [] rfl rfl rfl rfl rfl).trans (by decide),
   (SearchProfiles_load_timeout (demoPagingConfig ["x", "y"])).2.2
      (demoPaging .ctxDone).keyword 0 "x" ["y"] [] ["/in/a1"] rfl rfl rfl (by decide)⟩

/-- C12. `validate` returns an error if and only if the keyword list is empty,
or the connect daily limit is negative, or the messaging daily limit is
negative; every other configuration is accepted (`nil`). -/
theorem validate_error_iff (cfg : Config) :
    (validate cfg ≠ none
      ↔ (cfg.Search.Keywords = [] ∨ cfg.Connect.DailyLimit < 0 ∨ cfg.Messaging.DailyLimit < 0))
    ∧ (validate cfg = none
      ↔ ¬ (cfg.Search.Keywords = [] ∨ cfg.Connect.DailyLimit < 0
            ∨ cfg.Messaging.DailyLimit < 0)) := by
  unfold validate
  by_cases hk : cfg.Search.Keywords = []
  · simp [hk]
  · have hk2 : ¬ cfg.Search.Keywords.length = 0 := by
      simpa [List.length_eq_zero] using hk
    by_cases hc : cfg.Connect.DailyLimit < 0
    · simp [hk, hk2, hc]
    · by_cases hm : cfg.Messaging.DailyLimit < 0
      · simp [hk, hk2, hc, hm]
      · simp [hk, hk2, hc, hm]

/-- C13. If the persisted session is restored and the feed page is requested,
but the probe times out (no answer of the page shows the marker
"linkedin.com/feed" within the window), `Login` returns nothing at that point:
it goes on with the fresh login, starting with the navigation to the login
page, and, when the steps of the fresh login succeed, fills the fields, clicks
the submit button and returns `nil`. -/
theorem Login_probe_timeout (w : LoginWorld) (email password : String)
    (hpage : w.pageFault = none) (hcookies : w.loadCookies = none)
    (hfeed : w.feedNavigate = none)
    (hprobe : ∀ url, some url ∈ w.probe → stringsContains url "linkedin.com/feed" = false) :
    waitForURLContains w.probe "linkedin.com/feed" = some "timeout waiting for target URL"
    ∧ Login w email password
        = freshLogin w email password
            [.restoreCookies, .navigate "https://www.linkedin.com/feed/", .probe]
    ∧ LoginEvent.navigate "https://www.linkedin.com/login" ∈ (Login w email password).trace
    ∧ (FreshLoginLoads w →
        (Login w email password).exit = .returned none
        ∧ LoginEvent.clickSubmit ∈ (Login w email password).trace) := by
  have ht := waitForURLContains_timeout "linkedin.com/feed" w.probe hprobe
  have hl : Login w email password
      = freshLogin w email password
          [.restoreCookies, .navigate "https://www.linkedin.com/feed/", .probe] := by
    simp [Login, restoreSession, hpage, hcookies, hfeed, ht]
  refine ⟨ht, hl, ?_, ?_⟩
  · rw [hl]
    exact freshLogin_navigates w email password _
  · intro hf
    rw [hl]
    exact ⟨(freshLogin_loads w email password _ hf).1, (freshLogin_loads w email password _ hf).2.2⟩

/-- Witness of C13: the cookies are restored, the probe sees the login page and
then an error, never the feed; the login goes on through the form and returns
`nil`. -/
theorem Login_probe_timeout_witness :
    Login (okLogin true [some "https://www.linkedin.com/login", none]
        (some "https://www.linkedin.com/feed/") false) "me@example.com" "secret"
      = freshLogin (okLogin true [some "https://www.linkedin.com/login", none]
          (some "https://www.linkedin.com/feed/") false) "me@example.com" "secret"
          [.restoreCookies, .navigate "https://www.linkedin.com/feed/", .probe]
    ∧ (Login (okLogin true [some "https://www.linkedin.com/login", none]
        (some "https://www.linkedin.com/feed/") false) "me@example.com" "secret").trace
      = [.restoreCookies, .navigate "https://www.linkedin.com/feed/", .probe,
          .navigate "https://www.linkedin.com/login", .waitLoad,
          .input "#session_key" "me@example.com", .input "#session_password" "secret",
          .clickSubmit, .waitLoad, .saveCookies] :=
  ⟨(Login_probe_timeout (okLogin true [some "https://www.linkedin.com/login", none]
      (some "https://www.linkedin.com/feed/") false) "me@example.com" "secret" rfl rfl rfl
      (by
        intro url hu
        have hurl : url = "https://www.linkedin.com/login" := by simpa [okLogin] using hu
        subst hurl
        decide)).2.1,
   by decide⟩

/-- C14. Whenever the steps of a fresh login succeed up to the page load after
the submit, the fresh login, and `Login` as a whole, returns `nil`: for every
landing URL, one with "checkpoint" or "challenge" included, for a failing
`page.Info()`, and whether or not persisting the cookies fails. -/
theorem Login_succeeds_after_load (w : LoginWorld) (email password : String)
    (h : FreshLoginLoads w) :
    (∀ tr : List LoginEvent, (freshLogin w email password tr).exit = .returned none)
    ∧ (w.pageFault = none → (Login w email password).exit = .returned none)
    ∧ (∀ (info : Option String) (saveCookies : Fault) (tr : List LoginEvent),
        (freshLogin { w with info := info, saveCookies := saveCookies } email password tr).exit
          = .returned none) := by
  refine ⟨fun tr => (freshLogin_loads w email password tr h).1, ?_, ?_⟩
  · intro hpage
    unfold Login
    rw [hpage]
    dsimp only
    split
    · rfl
    · exact (freshLogin_loads w email password _ h).1
  · intro info saveCookies tr
    exact (freshLogin_loads { w with info := info, saveCookies := saveCookies } email password
      tr h).1

/-- Witness of C14: no persisted session, the login lands on a checkpoint page
and the cookie file cannot be written; `Login` returns `nil` after warning
about both. -/
theorem Login_succeeds_after_load_witness :
    (Login (okLogin false [] (some "https://www.linkedin.com/checkpoint/challenge/1") true)
        "me@example.com" "secret").exit = .returned none
    ∧ (Login (okLogin false [] (some "https://www.linkedin.com/checkpoint/challenge/1") true)
        "me@example.com" "secret").trace
      = [.restoreCookies, .navigate "https://www.linkedin.com/login", .waitLoad,
          .input "#session_key" "me@example.com", .input "#session_password" "secret",
          .clickSubmit, .waitLoad, .warnCheckpoint, .saveCookies, .warnCookies] :=
  ⟨(Login_succeeds_after_load
      (okLogin false [] (some "https://www.linkedin.com/checkpoint/challenge/1") true)
      "me@example.com" "secret"
      ⟨rfl, rfl, ⟨"#session_key", rfl⟩, rfl, ⟨"#session_password", rfl⟩, rfl, rfl,
        rfl, rfl⟩).2.1 rfl,
   by decide⟩

/-- C15. For every target and message kind, two consecutive `RecordMessage`
calls on a working database both succeed and both insert a row: the table
gains the two rows, and `CountMessagesSince` for that kind and any instant not
later than both timestamps goes up by exactly 2. -/
theorem RecordMessage_twice (s : Storage) (profileURL msgType : String) (t1 t2 since : Int)
    (h1 : since ≤ t1) (h2 : since ≤ t2) :
    ∃ (s1 s2 : Storage) (n : Int),
      s.RecordMessage none profileURL msgType t1 = .ok s1
      ∧ s1.RecordMessage none profileURL msgType t2 = .ok s2
      ∧ s2.messages = s.messages ++ [⟨profileURL, msgType, t1⟩, ⟨profileURL, msgType, t2⟩]
      ∧ s2.sent_requests = s.sent_requests
      ∧ s.CountMessagesSince none msgType since = .ok n
      ∧ s2.CountMessagesSince none msgType since = .ok (n + 2) := by
  refine ⟨_, _, _, rfl, rfl, by simp, rfl, rfl, ?_⟩
  simp [Storage.CountMessagesSince, List.filter_append, List.filter_cons, h1, h2]

/-- Witness of C15: two follow-ups to the same profile, the second one second
later, on a table that already holds one. -/
theorem RecordMessage_twice_witness :
    ∃ (s1 s2 : Storage) (n : Int),
      Storage.RecordMessage ⟨[], [⟨"p", "followup", 5⟩]⟩ none "p" "followup" 10 = .ok s1
      ∧ s1.RecordMessage none "p" "followup" 11 = .ok s2
      ∧ s2.messages
          = [⟨"p", "followup", 5⟩] ++ [⟨"p", "followup", 10⟩, ⟨"p", "followup", 11⟩]
      ∧ s2.sent_requests = []
      ∧ Storage.CountMessagesSince ⟨[], [⟨"p", "followup", 5⟩]⟩ none "followup" 0 = .ok n
      ∧ s2.CountMessagesSince none "followup" 0 = .ok (n + 2) :=
  RecordMessage_twice ⟨[], [⟨"p", "followup", 5⟩]⟩ "p" "followup" 10 11 0 (by decide) (by decide)

/-- Counterexample to C16 as stated: `min` is the least duration and `max` is
1 ns, so `min < max` and `max > 0`; `max - min` overflows to a negative
`int64`, `rand.Int63n` panics and nothing is slept. -/
theorem RandomDelay_overflow :
    (-(2 ^ 63) : Int) < 1 ∧ (0 : Int) < 1
    ∧ -(2 ^ 63) ≤ (-(2 ^ 63) : Int) ∧ (1 : Int) < 2 ^ 63
    ∧ RandomDelay (fun _ => 0) (-(2 ^ 63)) 1 = ⟨[.int63n (1 - 2 ^ 63)], true⟩ := by
  decide

/-- C16 (amended). For every pair of durations with `min < max`, `max > 0` and
`max - min` within `int64` (no overflow of the difference), `RandomDelay(min,
max)` draws once and sleeps once, for a duration `d` with `min ≤ d < max`;
`rand.Int63n(n)` returns a value in `[0, n)`. -/
theorem RandomDelay_in_range (int63n : Int → Int) (min max : Int)
    (hmin : IsInt64 min) (hmax : IsInt64 max) (hlt : min < max) (hpos : 0 < max)
    (hfit : max - min < 2 ^ 63)
    (hrand : 0 ≤ int63n (max - min) ∧ int63n (max - min) < max - min) :
    ∃ d, RandomDelay int63n min max = ⟨[.int63n (max - min), .sleep d], false⟩
      ∧ min ≤ d ∧ d < max := by
  have hdelta : wrapInt64 (max - min) = max - min :=
    wrapInt64_of_isInt64 _ ⟨by have := hmin.1; norm_num at this ⊢; omega, hfit⟩
  have hsleep : wrapInt64 (min + int63n (max - min)) = min + int63n (max - min) :=
    wrapInt64_of_isInt64 _ ⟨by have := hmin.1; omega, by have := hmax.2; omega⟩
  have h1 : ¬ (max ≤ 0 ∨ max < min) := by omega
  have h2 : ¬ (max - min ≤ 0) := by omega
  refine ⟨min + int63n (max - min), ?_, by omega, by omega⟩
  simp [RandomDelay, h1, hdelta, h2, hsleep]

/-- Witness of C16 (amended): `RandomDelay(2s, 5s)` with the draw 1 s sleeps 3 s. -/
theorem RandomDelay_in_range_witness :
    ∃ d, RandomDelay (fun _ => 1000000000) 2000000000 5000000000
        = ⟨[.int63n (5000000000 - 2000000000), .sleep d], false⟩
      ∧ 2000000000 ≤ d ∧ d < 5000000000 :=
  RandomDelay_in_range (fun _ => 1000000000) 2000000000 5000000000
    (by unfold IsInt64; decide) (by unfold IsInt64; decide) (by decide) (by decide)
    (by decide) (by decide)

/-- C18, the code on every input: the divisor `time.Duration(speedFactor)` is 0
at the first point of every path (speed factor 0.5); a zero divisor at any
point makes the loop panic; so every call of `MoveMouseHumanly`, over its path
of 81 points, panics before its first sleep, as the call for the target
(500, 300) does. -/
theorem MoveMouseHumanly_zero_divisor :
    (∀ (m : GoMath) (len : Nat), speedDivisor m len 0 = 0)
    ∧ (∀ (m : GoMath) (rnd : MouseDraws) (len i : Nat) (p : ℚ × ℚ) (rest : List (ℚ × ℚ))
        (run : MouseRun), speedDivisor m len i = 0 →
          (mouseLoop m rnd len i (p :: rest) run).panicked = true)
    ∧ (∀ (float64 : Nat → ℚ) (x0 y0 x3 y3 : ℚ), (bezierPath float64 x0 y0 x3 y3 80).length = 81)
    ∧ (∀ (m : GoMath) (rnd : MouseDraws) (targetX targetY : ℚ),
        (MoveMouseHumanly m rnd targetX targetY).panicked = true
        ∧ (MoveMouseHumanly m rnd targetX targetY).sleeps = [])
    ∧ (MoveMouseHumanly demoMath demoDraws 500 300).panicked = true := by
  refine ⟨?_, ?_, ?_, ?_, (MoveMouseHumanly_first_point demoMath demoDraws 500 300).1⟩
  · intro m len
    unfold speedDivisor
    norm_num [float64ToInt64, m.sin_zero]
    rfl
  · intro m rnd len i p rest run h
    unfold speedDivisor at h
    simp [mouseLoop, h]
  · intro float64 x0 y0 x3 y3
    simp [bezierPath, Function.comp_def]
  · intro m rnd targetX targetY
    exact ⟨(MoveMouseHumanly_first_point m rnd targetX targetY).1,
      (MoveMouseHumanly_first_point m rnd targetX targetY).2.2⟩

/-- C19, the code at a failing input: `RandomDelay(2s, 2s)` passes the guard
`max <= 0 || max < min`, computes `delta = 0` and calls `rand.Int63n(0)`,
which panics; nothing is slept. The same holds for every pair of equal positive
durations. -/
theorem RandomDelay_not_total :
    RandomDelay (fun _ => 0) 2000000000 2000000000 = ⟨[.int63n 0], true⟩
    ∧ (∀ (int63n : Int → Int) (d : Int), 0 < d →
        RandomDelay int63n d d = ⟨[.int63n 0], true⟩) :=
  ⟨RandomDelay_equal_bounds _ _ (by decide), RandomDelay_equal_bounds⟩

/-- C20, the code at failing inputs. On a working page the edit operations of
`TypeLikeHuman` are, rune by rune, the append of the rune, preceded when a slip
is drawn by the append of `randomNearbyRune` of the rune and one delete, with
one extra append and one delete per slip. The scripts behind them work on
UTF-16 code units and on a Go-quoted literal. With U+1F600 printable for
`strconv`, a slip on it appends two code units and deletes one: a value `b`
becomes `b`, the lone surrogate D83D, then the character, not `b` followed by
the text. With U+0007 not printable, `%q` writes it `\a`, which the script
reads as `a`: `b` becomes `b` followed by `a`. For "an" with a slip at both
runes, as for every text whose runes are appended as their own code units and
whose slips type a single code unit, `b` becomes `b` followed by the text. -/
theorem TypeLikeHuman_utf16_buffer :
    (∀ (draws : Nat → KeyDraws) (text : String),
        edits (TypeLikeHuman draws workingPage text).trace = expectedEdits draws 0 text.data
        ∧ (appends (TypeLikeHuman draws workingPage text).trace).length
            = text.length + slips draws 0 text.length
        ∧ deletes (TypeLikeHuman draws workingPage text).trace = slips draws 0 text.length
        ∧ (TypeLikeHuman draws workingPage text).err = none)
    ∧ (∀ (isPrint : Char → Bool) (b : List Nat), isPrint grinningFace = true →
        applyEvents isPrint b (TypeLikeHuman slipDraws workingPage ⟨[grinningFace]⟩).trace
          = b ++ [0xD83D, 0xD83D, 0xDE00]
        ∧ b ++ [0xD83D, 0xD83D, 0xDE00] ≠ b ++ utf16Units [grinningFace])
    ∧ utf16Units [grinningFace] = [0xD83D, 0xDE00]
    ∧ (∀ (isPrint : Char → Bool) (b : List Nat), isPrint bell = false →
        applyEvents isPrint b (TypeLikeHuman noSlipDraws workingPage ⟨[bell]⟩).trace
          = b ++ [0x61]
        ∧ b ++ [0x61] ≠ b ++ utf16Units [bell])
    ∧ utf16Units [bell] = [7]
    ∧ applyEvents demoIsPrint [0x78] (TypeLikeHuman slipDraws workingPage "an").trace
        = [0x78, 0x61, 0x6E]
    ∧ (∀ (isPrint : Char → Bool) (draws : Nat → KeyDraws) (text : String) (b : List Nat),
        (∀ r ∈ text.data, appendedUnits isPrint r = utf16 r
          ∧ ∃ u, appendedUnits isPrint (randomNearbyRune r) = [u]) →
        applyEvents isPrint b (TypeLikeHuman draws workingPage text).trace
          = b ++ utf16Units text.data) := by
  have hslip : ∀ j, (slipDraws j).float64 < 0.03 := by intro j; norm_num [slipDraws]
  have hno : ∀ j, ¬ (noSlipDraws j).float64 < 0.03 := by intro j; norm_num [noSlipDraws]
  refine ⟨?_, ?_, by decide, ?_, by decide, ?_, ?_⟩
  · intro draws text
    obtain ⟨a, b, c, d, _⟩ := TypeLikeHuman_working draws text
    exact ⟨a, b, c, d⟩
  · intro isPrint b hp
    have hq : goQuoteRune isPrint grinningFace = [grinningFace] := by
      have h1 : ¬ (grinningFace = doubleQuote ∨ grinningFace = backslash) := by decide
      simp only [goQuoteRune, h1, if_false, hp, if_true]
    have ha : appendedUnits isPrint grinningFace = [0xD83D, 0xDE00] := by
      unfold appendedUnits; rw [hq]; decide
    have hr : randomNearbyRune grinningFace = grinningFace := by decide
    refine ⟨?_, ?_⟩
    · rw [(TypeLikeHuman_working slipDraws ⟨[grinningFace]⟩).2.2.2.2]
      simp only [expectedEdits, hslip, if_true, hr]
      simp only [applyEvents, List.foldl, List.cons_append, List.nil_append, applyEvent, ha]
      have hd : (b ++ [0xD83D, 0xDE00]).dropLast = b ++ [0xD83D] := by
        have : b ++ [0xD83D, 0xDE00] = (b ++ [0xD83D]) ++ [0xDE00] := by simp
        rw [this, List.dropLast_concat]
      rw [hd]; simp
    · intro h
      have := List.append_cancel_left h
      revert this; decide
  · intro isPrint b hp
    have hq : goQuoteRune isPrint bell = [backslash, 'a'] := by
      have h1 : ¬ (bell = doubleQuote ∨ bell = backslash) := by decide
      have h2 : bell.toNat = 7 := by decide
      simp [goQuoteRune, h1, hp, h2]
    have ha : appendedUnits isPrint bell = [0x61] := by
      unfold appendedUnits; rw [hq]; decide
    refine ⟨?_, ?_⟩
    · rw [(TypeLikeHuman_working noSlipDraws ⟨[bell]⟩).2.2.2.2]
      simp only [expectedEdits, hno, if_false]
      simp [applyEvents, applyEvent, ha]
    · intro h
      have := List.append_cancel_left h
      revert this; decide
  · rw [(TypeLikeHuman_working slipDraws "an").2.2.2.2]
    simp only [expectedEdits, hslip, if_true]
    decide
  · intro isPrint draws text b h
    rw [(TypeLikeHuman_working draws text).2.2.2.2]
    exact applyEvents_expectedEdits isPrint draws text.data h 0 b

/-- C21. Every configuration that `Load` returns (the decoded file after
`applyDefaults`, accepted by `validate`) has a strictly positive connect daily
limit and a strictly positive messaging daily limit: `applyDefaults` replaces a
limit of 0 by 10 and keeps any other value, and `Load` returns an error for a
file with a negative limit. -/
theorem Load_limits_positive :
    (∀ (file : Except Error Config) (envDSN : String) (cfg : Config),
        Load file envDSN = .ok cfg → 0 < cfg.Connect.DailyLimit ∧ 0 < cfg.Messaging.DailyLimit)
    ∧ (∀ c : Config,
        (applyDefaults c).Connect.DailyLimit
            = (if c.Connect.DailyLimit = 0 then 10 else c.Connect.DailyLimit)
        ∧ (applyDefaults c).Messaging.DailyLimit
            = (if c.Messaging.DailyLimit = 0 then 10 else c.Messaging.DailyLimit))
    ∧ (∀ (c : Config) (envDSN : String),
        c.Connect.DailyLimit < 0 ∨ c.Messaging.DailyLimit < 0 →
          ∃ e, Load (.ok c) envDSN = .error e) := by
  refine ⟨?_, fun c => ⟨applyDefaults_connect_limit c, applyDefaults_messaging_limit c⟩, ?_⟩
  · intro file envDSN cfg h
    cases file with
    | error e => simp [Load] at h
    | ok c =>
      unfold Load at h
      dsimp only at h
      cases hv : validate (applyDefaults c) with
      | some e => rw [hv] at h; simp at h
      | none =>
        rw [hv] at h
        obtain ⟨h1, h2⟩ := validate_none_limits _ hv
        have k1 := applyDefaults_connect_limit c
        have k2 := applyDefaults_messaging_limit c
        have hcfg : cfg.Connect = (applyDefaults c).Connect
            ∧ cfg.Messaging = (applyDefaults c).Messaging := by
          by_cases he : (envDSN != "") = true
          · simp only [he, if_true, Except.ok.injEq] at h
            subst h
            exact ⟨rfl, rfl⟩
          · simp only [he, if_false, Except.ok.injEq, Bool.false_eq_true] at h
            subst h
            exact ⟨rfl, rfl⟩
        rw [hcfg.1, hcfg.2]
        constructor
        · by_cases h0 : c.Connect.DailyLimit = 0
          · rw [k1, if_pos h0]; decide
          · rw [k1, if_neg h0] at h1 ⊢; omega
        · by_cases h0 : c.Messaging.DailyLimit = 0
          · rw [k2, if_pos h0]; decide
          · rw [k2, if_neg h0] at h2 ⊢; omega
  · intro c envDSN hneg
    have hneg2 : (applyDefaults c).Connect.DailyLimit < 0
        ∨ (applyDefaults c).Messaging.DailyLimit < 0 := by
      rw [applyDefaults_connect_limit, applyDefaults_messaging_limit]
      rcases hneg with h | h
      · exact Or.inl (by rw [if_neg (by omega)]; exact h)
      · exact Or.inr (by rw [if_neg (by omega)]; exact h)
    obtain ⟨e, he⟩ := validate_negative_limit _ hneg2
    exact ⟨e, by simp [Load, he]⟩

/-- Witness of C21: a file that sets one keyword and leaves both daily limits
at 0 is accepted, with both limits at 10. -/
theorem Load_limits_positive_witness :
    Load (.ok (demoConfig ["golang"] 0 0)) "" = .ok (applyDefaults (demoConfig ["golang"] 0 0))
    ∧ (applyDefaults (demoConfig ["golang"] 0 0)).Connect.DailyLimit = 10
    ∧ (applyDefaults (demoConfig ["golang"] 0 0)).Messaging.DailyLimit = 10
    ∧ 0 < (applyDefaults (demoConfig ["golang"] 0 0)).Connect.DailyLimit
    ∧ 0 < (applyDefaults (demoConfig ["golang"] 0 0)).Messaging.DailyLimit :=
  ⟨rfl, rfl, rfl,
   Load_limits_positive.1 (.ok (demoConfig ["golang"] 0 0)) ""
     (applyDefaults (demoConfig ["golang"] 0 0)) rfl⟩

end LinkedinAutomation
